import Mathlib

/-!
Verification development for the MaiMuriDX muri analyzer.

The Python sources are shallowly embedded here:
* time stamps ("ticks", Python floats) are modelled as rationals `ℚ`
  (the geometric claims of `util.py` use real/complex numbers instead);
* touch pads (`core.Pad`) are modelled by their 6-bit value `Fin 33`;
* Python dictionaries keyed by pads become functions `Pad → Option α`;
* actions are identified in note state by a numeric id (`ℕ`) because the
  engine only stores references to them.

Each section names the source file and function it embeds.
-/

namespace MaiMuri

/-! ## Constants from `core.py`

`JUDGE_TPF = 3`; the windows are integer multiples of it.  The config-derived
constants use the default `config.json` that `core.py` writes on first run
(`tap_on_slide_threshold = round(1/3, 4) = 0.3333`, `collide_threshold = 12`,
`overlay_threshold = 2`, `extra_paddown_delay = 3`, `release_delay = 1`).
-/

def JUDGE_TPF : ℚ := 3
def JUDGE_TPS : ℚ := JUDGE_TPF * 60

def TAP_CRITICAL : ℚ := JUDGE_TPF * 1
def TAP_AVAILABLE : ℚ := JUDGE_TPF * 9

def TOUCH_CRITICAL : ℚ := JUDGE_TPF * 9
def TOUCH_AVAILABLE : ℚ := JUDGE_TPF * 9

def SLIDE_CRITICAL : ℚ := JUDGE_TPF * 14
def SLIDE_AVAILABLE : ℚ := JUDGE_TPF * 36
def SLIDE_DELTA_SHIFT : ℚ := JUDGE_TPF * 3
def SLIDE_LEADING : ℚ := JUDGE_TPF * 5

def TAP_ON_SLIDE_THRESHOLD : ℚ := JUDGE_TPF * (3333 / 10000)
def OVERLAY_THRESHOLD : ℚ := JUDGE_TPF * 2
def COLLIDE_THRESHOLD : ℚ := JUDGE_TPF * 12
def COLLIDE_EXTRA_DELTA : ℚ := COLLIDE_THRESHOLD - TAP_AVAILABLE
def EXTRA_PADDOWN_DELAY : ℚ := JUDGE_TPF * 3
def RELEASE_DELAY : ℚ := JUDGE_TPF * 1

/-- Canvas-scaled hand radii (`CANVAS_SIZE = 540`, so the 1080-reference
values are exactly halved). -/
def HAND_RADIUS_MAX : ℚ := 540 * 180 / 1080
def HAND_RADIUS_WIFI : ℚ := 540 * 100 / 1080
def HAND_RADIUS_NORMAL : ℚ := 540 * 40 / 1080

/-! ## `core.JudgeResult` and `core.Pad` -/

inductive JudgeResult where
  | notYet
  | critical
  | bad
  deriving DecidableEq, Repr

/-- A touch pad, identified by its 6-bit value `(group << 3) | index`
(groups A=0, B=1, D=2, E=3, C=4; the value `C` is `32`). -/
structure Pad where
  val : Fin 33
  deriving DecidableEq, Repr

/-- `Pad(idx % 8)` as called on a 1-8 button number: the A-group pad of the
button, `A8` being value `0`. -/
def padOfIdx (idx : ℤ) : Pad :=
  ⟨⟨(idx % 8).toNat, by omega⟩⟩

/-- `Pad.is_group_a` from `core.py`: value in `0..7`. -/
def Pad.isGroupA (p : Pad) : Bool := p.val.val ≤ 7

/-! ## Simple notes (`simai.SimaiSimpleNote`)

Tap/Hold/Touch/TouchHold share one state machine; the subclasses only
override the timing windows (`_get_available_delta` / `_get_critical_delta`).
-/

inductive SimpleKind where
  | tap
  | hold
  | touch
  | touchHold
  deriving DecidableEq, Repr

def SimpleKind.availableDelta : SimpleKind → ℚ
  | .tap => TAP_AVAILABLE
  | .hold => TAP_AVAILABLE
  | .touch => TOUCH_AVAILABLE
  | .touchHold => TOUCH_AVAILABLE

def SimpleKind.criticalDelta : SimpleKind → ℚ
  | .tap => TAP_CRITICAL
  | .hold => TAP_CRITICAL
  | .touch => TOUCH_CRITICAL
  | .touchHold => TOUCH_CRITICAL

/-- The immutable data of a simple note. -/
structure SimpleNote where
  kind : SimpleKind
  moment : ℚ
  pad : Pad
  deriving DecidableEq, Repr

/-- The mutable judge state shared by all notes (`SimaiNote.__init__`). -/
structure SimpleState where
  judge : JudgeResult
  judgeMoment : ℚ
  judgeAction : Option ℕ
  deriving DecidableEq, Repr

def SimpleState.init : SimpleState :=
  { judge := .notYet, judgeMoment := -1, judgeAction := none }

/-- `SimaiSimpleNote.on_pad_down`.  Returns the consumed flag together with
the updated state. -/
def onPadDown (n : SimpleNote) (st : SimpleState) (now : ℚ) (pad : Pad)
    (action : Option ℕ) : Bool × SimpleState :=
  if st.judge ≠ .notYet then (false, st)
  else
    let delta := now - n.moment
    if delta < -(n.kind.availableDelta) then (false, st)
    else if pad ≠ n.pad then (false, st)
    else
      (true,
        { judge := if |delta| ≤ n.kind.criticalDelta then .critical else .bad
          judgeMoment := now
          judgeAction := action })

/-- `SimaiSimpleNote.update` (the late-timeout path; the pad maps are unused
by the Python implementation). -/
def simpleUpdate (n : SimpleNote) (st : SimpleState) (now : ℚ) : SimpleState :=
  if st.judge ≠ .notYet then st
  else if now - n.moment > n.kind.availableDelta then
    { st with judge := .bad, judgeMoment := now }
  else st

/-! Events a simple note can receive from the judge engine
(`judge.JudgeManager.tick` offers pad-down events first, then calls
`update`; `SimaiTouchGroup.update` can additionally call `on_pad_down` with
`action = None`).  A trace is an arbitrary time-stamped event list, which
over-approximates every schedule the engine can produce. -/

inductive NoteEvent where
  | padDown (pad : Pad) (action : Option ℕ)
  | update
  deriving DecidableEq, Repr

def applyEvent (n : SimpleNote) (st : SimpleState) (e : ℚ × NoteEvent) :
    SimpleState :=
  match e.2 with
  | .padDown p a => (onPadDown n st e.1 p a).2
  | .update => simpleUpdate n st e.1

def runEventsFrom (n : SimpleNote) (evs : List (ℚ × NoteEvent))
    (st : SimpleState) : SimpleState :=
  evs.foldl (applyEvent n) st

def runEvents (n : SimpleNote) (evs : List (ℚ × NoteEvent)) : SimpleState :=
  runEventsFrom n evs SimpleState.init

/-- The per-note judge invariant that the code really maintains. -/
def SimpleInv (n : SimpleNote) (st : SimpleState) : Prop :=
  (st.judge = .critical → |st.judgeMoment - n.moment| ≤ n.kind.criticalDelta) ∧
  (st.judge ≠ .notYet → -(n.kind.availableDelta) ≤ st.judgeMoment - n.moment)

lemma simpleInv_applyEvent (n : SimpleNote) (st : SimpleState)
    (e : ℚ × NoteEvent) (havail : (0:ℚ) ≤ n.kind.availableDelta)
    (h : SimpleInv n st) : SimpleInv n (applyEvent n st e) := by
  rcases e with ⟨now, ev⟩
  cases ev with
  | padDown p a =>
    simp only [applyEvent, onPadDown]
    by_cases hj : st.judge ≠ .notYet
    · simpa [hj] using h
    · simp only [hj, if_false]
      by_cases hl : now - n.moment < -(n.kind.availableDelta)
      · simpa [hl] using h
      · by_cases hp : p ≠ n.pad
        · simpa [hl, hp] using h
        · simp only [hl, hp, if_false]
          constructor
          · intro hc
            by_cases hcrit : |now - n.moment| ≤ n.kind.criticalDelta
            · simpa using hcrit
            · simp [hcrit] at hc
          · intro _
            simp only
            linarith [not_lt.mp hl]
  | update =>
    simp only [applyEvent, simpleUpdate]
    by_cases hj : st.judge ≠ .notYet
    · simpa [hj] using h
    · simp only [hj, if_false]
      by_cases hl : now - n.moment > n.kind.availableDelta
      · simp only [hl, if_true]
        constructor
        · intro hc; simp at hc
        · intro _
          simp only
          linarith
      · simpa [hl] using h

lemma simpleInv_runEventsFrom (n : SimpleNote) (evs : List (ℚ × NoteEvent))
    (havail : (0:ℚ) ≤ n.kind.availableDelta) :
    ∀ st : SimpleState, SimpleInv n st → SimpleInv n (runEventsFrom n evs st) := by
  induction evs with
  | nil => intro st h; simpa [runEventsFrom] using h
  | cons e rest ih =>
    intro st h
    exact ih _ (simpleInv_applyEvent n st e havail h)

/-! ### Claim C1 -/

/-- **C1.** For a simple note (Tap, Hold, Touch, TouchHold) whose judge state
is `Not_Yet`, `on_pad_down(now, pad, action)` returns `False` and leaves the
state unchanged when `pad` differs from the note's pad or when
`now < moment - available_window`; otherwise it consumes the event, records
`judge_moment = now` and `judge_action = action`, and sets the judge to
`Critical` if `|now - moment| ≤ critical_window` and to `Bad` otherwise.
The windows are `TAP_CRITICAL`/`TAP_AVAILABLE` for Tap and Hold and
`TOUCH_CRITICAL`/`TOUCH_AVAILABLE` for Touch and TouchHold
(`SimaiSimpleNote.on_pad_down`, `simai.py`). -/
theorem C1_onPadDown_spec (n : SimpleNote) (st : SimpleState) (now : ℚ)
    (pad : Pad) (action : Option ℕ) (h : st.judge = .notYet) :
    (pad ≠ n.pad ∨ now < n.moment - n.kind.availableDelta →
      onPadDown n st now pad action = (false, st)) ∧
    (pad = n.pad → n.moment - n.kind.availableDelta ≤ now →
      onPadDown n st now pad action =
        (true,
          { judge :=
              if |now - n.moment| ≤ n.kind.criticalDelta then .critical
              else .bad
            judgeMoment := now
            judgeAction := action })) := by
  constructor
  · rintro (hpad | hlate)
    · unfold onPadDown
      simp only [h]
      by_cases hl : now - n.moment < -(n.kind.availableDelta) <;>
        simp [hl, hpad]
    · unfold onPadDown
      have : now - n.moment < -(n.kind.availableDelta) := by linarith
      simp [h, this]
  · intro hpad hle
    unfold onPadDown
    have : ¬(now - n.moment < -(n.kind.availableDelta)) := by
      intro hc; linarith
    simp [h, this, hpad]

/-- Witness for C1 at a concrete input: a Tap at moment 0 on pad `A1`
(value 1), hit at `now = 2` on the same pad, is consumed and judged
Critical (`|2| ≤ TAP_CRITICAL = 3`). -/
theorem C1_onPadDown_spec_witness :
    (SimpleState.init.judge = .notYet) ∧
    onPadDown ⟨.tap, 0, ⟨1⟩⟩ SimpleState.init 2 ⟨1⟩ (some 0) =
      (true, { judge := .critical, judgeMoment := 2, judgeAction := some 0 }) := by
  refine ⟨rfl, ?_⟩
  have h := (C1_onPadDown_spec ⟨.tap, 0, ⟨1⟩⟩ SimpleState.init 2 ⟨1⟩
    (some 0) rfl).2 rfl (by norm_num [SimpleKind.availableDelta, TAP_AVAILABLE, JUDGE_TPF])
  rw [h]
  norm_num [SimpleKind.criticalDelta, TAP_CRITICAL, JUDGE_TPF]

/-! ### Claim C3

The claimed invariant `judge ≠ NotYet ⇒ |judge_moment − moment| ≤
available_window` fails on the code: inside one engine tick, pad-down
dispatch happens *before* the routine `update`, so a pad-down arriving one
tick after the last in-window update is still consumed.  Concretely, a Tap
at moment 0 that is updated at `now = 27` (still in window, `27 ≤
TAP_AVAILABLE`) and then receives a pad-down at `now = 28` is judged Bad
with `judge_moment − moment = 28 > TAP_AVAILABLE = 27`.  This trace is
engine-realizable: tick Δ=1, a Press action on the same pad at moment 28
(e.g. a later tap of an overlap pair) produces that pad-down, and
`JudgeManager.tick` dispatches it before calling `note.update`. -/

/-- **C3, counterexample.**  After the engine-ordered event trace
`[update@27, padDown@28]`, the Tap at moment 0 is judged (Bad) with
`judge_moment − moment = 28`, strictly greater than `TAP_AVAILABLE = 27`. -/
theorem C3_counterexample :
    let n : SimpleNote := ⟨.tap, 0, ⟨1⟩⟩
    let st := runEvents n [(27, .update), (28, .padDown ⟨1⟩ (some 5))]
    st.judge ≠ .notYet ∧ ¬(|st.judgeMoment - n.moment| ≤ n.kind.availableDelta) := by
  intro n st
  have hst : st = { judge := .bad, judgeMoment := 28, judgeAction := some 5 } := by
    show runEvents n _ = _
    rw [runEvents, runEventsFrom]
    simp only [List.foldl_cons, List.foldl_nil]
    have h1 : applyEvent n SimpleState.init (27, .update) = SimpleState.init := by
      simp only [applyEvent, simpleUpdate, SimpleState.init]
      norm_num [n, SimpleKind.availableDelta, TAP_AVAILABLE, JUDGE_TPF]
    rw [h1]
    simp only [applyEvent, onPadDown, SimpleState.init]
    norm_num [n, SimpleKind.availableDelta, SimpleKind.criticalDelta,
      TAP_AVAILABLE, TAP_CRITICAL, JUDGE_TPF, abs_le]
  rw [hst]
  refine ⟨by simp, ?_⟩
  norm_num [n, SimpleKind.availableDelta, TAP_AVAILABLE, JUDGE_TPF]

/-- **C3, amended.**  What the code does guarantee, for every event trace a
judge engine can deliver to a simple note (pad-downs and updates at
arbitrary times): once judged, `judge_moment − moment ≥ −available_window`
(no early judgement outside the window), and if the judge is `Critical`
then `|judge_moment − moment| ≤ critical_window`.  The late-side bound
`judge_moment − moment ≤ available_window` of the original claim can be
exceeded, because pad-down dispatch precedes the same-tick update. -/
theorem C3_simple_invariant_amended (n : SimpleNote)
    (evs : List (ℚ × NoteEvent)) :
    let st := runEvents n evs
    (st.judge = .critical → |st.judgeMoment - n.moment| ≤ n.kind.criticalDelta) ∧
    (st.judge ≠ .notYet → -(n.kind.availableDelta) ≤ st.judgeMoment - n.moment) := by
  have havail : (0:ℚ) ≤ n.kind.availableDelta := by
    cases n.kind <;>
      norm_num [SimpleKind.availableDelta, TAP_AVAILABLE, TOUCH_AVAILABLE, JUDGE_TPF]
  have h0 : SimpleInv n SimpleState.init := by
    constructor <;> intro h <;> simp [SimpleState.init] at h
  exact simpleInv_runEventsFrom n evs havail SimpleState.init h0

/-! ## Actions (`action.py`)

`Action` objects are built by constructors that precompute `moment` /
`end_moment` / `require_two_hands`; the inductive stores the computed
fields and the `mk…` functions mirror the Python `__init__` bodies.
Slide paths and press positions live in opaque type parameters `P` / `V`
(the engine logic under verification never inspects them). -/

inductive MAction (P : Type u) (V : Type v) where
  | press (source : ℕ) (moment duration : ℚ) (position : V) (radius : ℚ)
      (endMoment : ℚ) (requireTwoHands : Bool)
  | slide (source : ℕ) (moment duration : ℚ) (path : P) (radius : ℚ)
      (endMoment : ℚ) (isWifi : Bool)
  | extraPadDown (source : ℕ) (moment : ℚ) (pad : Pad)

/-- `ActionPress.__init__`: `end_moment = moment + duration`, plus
`RELEASE_DELAY` when not tailless; two hands iff `radius > HAND_RADIUS_MAX`. -/
def mkActionPress (source : ℕ) (moment duration : ℚ) (position : V)
    (radius : ℚ) (tailless : Bool) : MAction P V :=
  .press source moment duration position radius
    (moment + duration + if tailless then 0 else RELEASE_DELAY)
    (decide (HAND_RADIUS_MAX < radius))

/-- `ActionSlide.__init__`. -/
def mkActionSlide (source : ℕ) (moment duration : ℚ) (path : P) (radius : ℚ)
    (tailless : Bool) (isWifi : Bool) : MAction P V :=
  .slide source moment duration path radius
    (moment + duration + if tailless then 0 else RELEASE_DELAY) isWifi

/-- `ActionExtraPadDown.__init__`: the stored `moment` is the constructor
argument `moment` **plus** `delay`. -/
def mkActionExtraPadDown (source : ℕ) (moment : ℚ) (pad : Pad) (delay : ℚ) :
    MAction P V :=
  .extraPadDown source (moment + delay) pad

def MAction.moment : MAction P V → ℚ
  | .press _ m _ _ _ _ _ => m
  | .slide _ m _ _ _ _ _ => m
  | .extraPadDown _ m _ => m

def MAction.source : MAction P V → ℕ
  | .press s _ _ _ _ _ _ => s
  | .slide s _ _ _ _ _ _ => s
  | .extraPadDown s _ _ => s

/-! ## Claim C4: ExtraPadDown pad-down recording (`judge.JudgeManager.tick`)

The action-evaluation step of `tick` begins with

    if isinstance(action, ActionExtraPadDown) and last_timer <= action.moment < self.timer:
        pad_down_source_dict[action.pad] = action

iterated over `active_actions`.  We model the resulting dictionary. -/

/-- One iteration of the loop (the guarded dictionary write). -/
def epdStep (lastTimer timer : ℚ) (d : Pad → Option (MAction P V))
    (a : MAction P V) : Pad → Option (MAction P V) :=
  match a with
  | .extraPadDown s m q =>
      if lastTimer ≤ m ∧ m < timer then
        fun r => if r = q then some (.extraPadDown s m q) else d r
      else d
  | _ => d

/-- The ExtraPadDown entries that the action-evaluation step of
`JudgeManager.tick` writes into `pad_down_source_dict`. -/
def epdRecord (acts : List (MAction P V)) (lastTimer timer : ℚ) :
    Pad → Option (MAction P V) :=
  acts.foldl (epdStep lastTimer timer) (fun _ => none)

/-- Whether the code's guard fires for an action. -/
def epdFires (lastTimer timer : ℚ) : MAction P V → Prop
  | .extraPadDown _ m _ => lastTimer ≤ m ∧ m < timer
  | _ => False

def MAction.epdPad : MAction P V → Option Pad
  | .extraPadDown _ _ p => some p
  | _ => none

lemma epdRecord_eq (acts : List (MAction P V)) (lastTimer timer : ℚ)
    (p : Pad) :
    epdRecord acts lastTimer timer p =
      acts.foldl (epdStep lastTimer timer) (fun _ => none) p := rfl

lemma foldl_epdStep_char (lastTimer timer : ℚ) (acts : List (MAction P V))
    (p : Pad) :
    ∀ d : Pad → Option (MAction P V),
      (acts.foldl (epdStep lastTimer timer) d p = d p ∧
        ¬∃ a ∈ acts, epdFires lastTimer timer a ∧ a.epdPad = some p) ∨
      (∃ a ∈ acts, epdFires lastTimer timer a ∧ a.epdPad = some p ∧
        acts.foldl (epdStep lastTimer timer) d p = some a) := by
  induction acts with
  | nil => intro d; left; simp
  | cons a rest ih =>
    intro d
    rcases ih (epdStep lastTimer timer d a) with ⟨heq, hno⟩ | ⟨b, hb, hf, hp, heq⟩
    · -- no later match; decide whether `a` matches at `p`
      by_cases hmatch : epdFires lastTimer timer a ∧ a.epdPad = some p
      · right
        refine ⟨a, by simp, hmatch.1, hmatch.2, ?_⟩
        rw [List.foldl_cons, heq]
        rcases a with _ | _ | ⟨s, m, q⟩ <;>
          simp [epdFires] at hmatch
        obtain ⟨⟨h1, h2⟩, hq⟩ := hmatch
        simp only [MAction.epdPad, Option.some.injEq] at hq
        simp [epdStep, h1, h2, hq]
      · left
        constructor
        · rw [List.foldl_cons, heq]
          rcases a with ⟨s, m, du, pos, r, e, t2⟩ | ⟨s, m, du, pa, r, e, w⟩ | ⟨s, m, q⟩
          · simp [epdStep]
          · simp [epdStep]
          · by_cases hw : lastTimer ≤ m ∧ m < timer
            · have hq : q ≠ p := by
                intro hqp
                exact hmatch ⟨hw, by simp [MAction.epdPad, hqp]⟩
              simp only [epdStep, if_pos hw]
              exact if_neg (fun h => hq h.symm)
            · simp [epdStep, hw]
        · rintro ⟨b, hb, hfb, hpb⟩
          rcases List.mem_cons.mp hb with rfl | hbrest
          · exact hmatch ⟨hfb, hpb⟩
          · exact hno ⟨b, hbrest, hfb, hpb⟩
    · right
      exact ⟨b, List.mem_cons_of_mem a hb, hf, hp, by rw [List.foldl_cons]; exact heq⟩

/-- **C4, counterexample.**  The claim places the recording window at
`(last_now, now]`, but the code's guard is `last_timer <= action.moment <
self.timer`, i.e. the half-open interval `[last_now, now)`.  An
ExtraPadDown constructed with moment `-3` and delay `3` (stored moment `0`)
is recorded during the tick from `last_now = 0` to `now = 1`, even though
its moment `0` is *not* in `(0, 1]`. -/
theorem C4_counterexample :
    let a : MAction Unit Unit := mkActionExtraPadDown 7 (-3) ⟨1⟩ 3
    epdRecord [a] 0 1 ⟨1⟩ = some a ∧
      ¬((0:ℚ) < a.moment ∧ a.moment ≤ 1) := by
  intro a
  constructor
  · rw [epdRecord_eq]
    simp only [List.foldl_cons, List.foldl_nil, a, mkActionExtraPadDown, epdStep]
    norm_num
  · simp only [a, mkActionExtraPadDown, MAction.moment]
    norm_num

/-- **C4, amended.**  During the action-evaluation step of
`JudgeManager.tick`, a pad-down is recorded on pad `p` exactly when some
active ExtraPadDown targeting `p` has its stored moment (constructor moment
plus delay) in the half-open interval `[last_now, now)` — not `(last_now,
now]` as claimed; the recorded source is such an action. -/
theorem C4_epd_window_amended (acts : List (MAction P V))
    (lastTimer timer : ℚ) (p : Pad) :
    ((epdRecord acts lastTimer timer p).isSome ↔
      ∃ a ∈ acts, epdFires lastTimer timer a ∧ a.epdPad = some p) ∧
    (∀ a, epdRecord acts lastTimer timer p = some a →
      a ∈ acts ∧ epdFires lastTimer timer a ∧ a.epdPad = some p) ∧
    (∀ (s : ℕ) (m : ℚ) (q : Pad) (delay : ℚ),
      epdFires lastTimer timer
          (mkActionExtraPadDown s m q delay : MAction P V) ↔
        lastTimer ≤ m + delay ∧ m + delay < timer) := by
  have hchar := foldl_epdStep_char (P := P) (V := V) lastTimer timer acts p
    (fun _ => none)
  refine ⟨?_, ?_, ?_⟩
  · constructor
    · intro hsome
      rcases hchar with ⟨heq, _⟩ | ⟨b, hb, hf, hp, _⟩
      · rw [epdRecord_eq, heq] at hsome
        simp at hsome
      · exact ⟨b, hb, hf, hp⟩
    · rintro ⟨b, hb, hf, hp⟩
      rcases hchar with ⟨_, hno⟩ | ⟨b', _, _, _, heq⟩
      · exact absurd ⟨b, hb, hf, hp⟩ hno
      · rw [epdRecord_eq, heq]; rfl
  · intro a ha
    rcases hchar with ⟨heq, _⟩ | ⟨b, hb, hf, hp, heq⟩
    · rw [epdRecord_eq, heq] at ha
      simp at ha
    · rw [epdRecord_eq, heq] at ha
      obtain rfl : b = a := by simpa using ha
      exact ⟨hb, hf, hp⟩
  · intro s m q delay
    simp [mkActionExtraPadDown, epdFires]

/-- Witness for C4's amended theorem at a concrete input. -/
theorem C4_epd_window_amended_witness :
    let a : MAction Unit Unit := mkActionExtraPadDown 7 (-3) ⟨1⟩ 3
    a ∈ [a] ∧ epdFires 0 1 a ∧ a.epdPad = some ⟨1⟩ := by
  intro a
  have hrec : epdRecord [a] 0 1 ⟨1⟩ = some a := by
    rw [epdRecord_eq]
    simp only [List.foldl_cons, List.foldl_nil, a, mkActionExtraPadDown, epdStep]
    norm_num
  exact (C4_epd_window_amended (P := Unit) (V := Unit) [a] 0 1 ⟨1⟩).2.1 a hrec

/-! ## Slide catalogue (`slides.py`) -/

inductive SlideType where
  | straight
  | circleCCW
  | circleCW
  | curveCCW
  | curveCW
  | lightningS
  | lightningZ
  | vShape
  | bigCurveCCW
  | bigCurveCW
  | lShapeCCW
  | lShapeCW
  | wifiType
  | invalid
  deriving DecidableEq, Repr

/-- `slides.SlideInfo` for one standard slide shape.  The parsed SVG path
objects live in the opaque type parameter `P` (the judge logic never
inspects them); render-only fields (`arrow_segments`, `arrow_points`) are
out of the claims' scope and omitted.

The field `criticalProportion` is referenced by `simai.py`
(`segment_infos[-1].critical_proportion`) but defined nowhere under `src/`;
it is carried here as plain catalogue data. -/
structure SlideInfo (P : Type u) where
  key : String
  start : ℤ
  endp : ℤ
  type_ : SlideType
  isL : Bool
  isSpecialL : Bool
  path : P
  realPath : P
  judgeSequence : List (List Pad)
  padEnterTime : List (Pad × ℚ)
  criticalProportion : ℚ

/-- `SlideInfo.__init__` (slides.py lines 560-613).  Note the line
`self.path = self.real_path = path`: the `real_path` argument is accepted
but never stored (the assignment from it is commented out in the source).
Judge-sequence `frozenset`s are modelled as lists; `pad_enter_time` is
stable-sorted by time. -/
def mkSlideInfo (key : String) (start endp : ℤ) (type_ : SlideType)
    (path realPath : P) (judgeSequence : List (List Pad))
    (padEnterTime : List (Pad × ℚ)) (criticalProportion : ℚ) : SlideInfo P :=
  let isL := type_ = .lShapeCCW ∨ type_ = .lShapeCW
  { key := key
    start := start
    endp := endp
    type_ := type_
    isL := isL
    isSpecialL := isL ∧ (endp - start) % 8 = 4
    path := path
    realPath := path
    judgeSequence := judgeSequence
    padEnterTime := padEnterTime.mergeSort (fun x y => x.2 ≤ y.2)
    criticalProportion := criticalProportion }

/-- `SlideInfo._register` (slides.py lines 634-649): the visual SVG is
parsed into a path, the real-hand SVG — when present — is parsed as well,
and both are handed to the constructor.  (The pad-set transformations by
reflect/rotate happen before this point and are taken as inputs here.) -/
def registerEntry (parse : String → P) (key : String) (start endp : ℤ)
    (type_ : SlideType) (shapeSvg : String) (realPathSvg : Option String)
    (judgeSequence : List (List Pad)) (padEnterTime : List (Pad × ℚ))
    (criticalProportion : ℚ) : SlideInfo P :=
  let path := parse shapeSvg
  let realPath :=
    match realPathSvg with
    | none => path
    | some svg => parse svg
  mkSlideInfo key start endp type_ path realPath judgeSequence padEnterTime
    criticalProportion

/-! ## Slide chains (`simai.SimaiSlideChain`) -/

/-- Immutable data of a `SimaiSlideChain` as computed by its `__init__`
(with explicit per-segment `durations`; the `total_duration` branch, which
splits by path length, is not needed by any claim).  The nonempty
`(segment, duration)` list is passed as head plus tail, mirroring the
indexing `[0]` / `[-1]` that the Python constructor performs. -/
structure SChain (P : Type u) where
  moment : ℚ
  segmentInfos : List (SlideInfo P)
  start : ℤ
  endp : ℤ
  availableMoment : ℚ
  waitDuration : ℚ
  shootMoment : ℚ
  durations : List ℚ
  segmentShootMoments : List ℚ
  endMoment : ℚ
  lastAreaDuration : ℚ
  criticalMoment : ℚ
  criticalDelta : ℚ
  judgeSequence : List (List Pad)
  partition : List Bool
  segmentIdxBias : List ℕ
  totalAreaNum : ℕ
  beforeSlide : Bool
  afterSlide : Bool

/-- The fold that concatenates segment judge sequences
(`judge_sequence.extend(info.judge_sequence[1:])`, `partition[-1] = True`,
`segment_idx_bias.append(len(judge_sequence) - 1)`). -/
def chainJudgeFold (acc : List (List Pad) × List Bool × List ℕ)
    (info : SlideInfo P) : List (List Pad) × List Bool × List ℕ :=
  let js := acc.1
  let part := acc.2.1
  let bias := acc.2.2
  (js ++ info.judgeSequence.tail,
   part.dropLast ++ [true] ++
     List.replicate (info.judgeSequence.length - 1) false,
   bias ++ [js.length - 1])

/-- `SimaiSlideChain.__init__` (simai.py lines 263-331). -/
def mkSChain (moment : ℚ) (seg0 : SlideInfo P × ℚ)
    (segRest : List (SlideInfo P × ℚ)) (wait : ℚ) : SChain P :=
  let segs := seg0 :: segRest
  let infos := segs.map Prod.fst
  let durations := segs.map Prod.snd
  let lastSeg := segRest.getLastD seg0
  let shootMoment := moment + wait
  let segmentShootMoments := durations.scanl (· + ·) shootMoment
  let endMoment := segmentShootMoments.getLastD shootMoment
  let lastAreaDuration := (1 - lastSeg.1.criticalProportion) * lastSeg.2
  let folded := (segRest.map Prod.fst).foldl chainJudgeFold
    (seg0.1.judgeSequence,
     List.replicate seg0.1.judgeSequence.length false, [0])
  { moment := moment
    segmentInfos := infos
    start := seg0.1.start
    endp := lastSeg.1.endp
    availableMoment := moment - SLIDE_LEADING
    waitDuration := wait
    shootMoment := shootMoment
    durations := durations
    segmentShootMoments := segmentShootMoments
    endMoment := endMoment
    lastAreaDuration := lastAreaDuration
    criticalMoment := endMoment - lastAreaDuration
    criticalDelta := min SLIDE_AVAILABLE (SLIDE_CRITICAL + lastAreaDuration / 4)
    judgeSequence := folded.1
    partition := folded.2.1 ++ [false]
    segmentIdxBias := folded.2.2
    totalAreaNum := folded.1.length
    beforeSlide := false
    afterSlide := false }

/-- The mutable judge-progress state of a `SimaiSlideChain`. -/
structure SChainState where
  judge : JudgeResult
  judgeMoment : ℚ
  judgeAction : Option ℕ
  curAreaIdx : ℕ
  curSegmentIdx : ℕ
  pressing : Option Pad
  areaJudgeActions : List (Option (ℕ × ℚ))
  deriving DecidableEq, Repr

def SChainState.init (c : SChain P) : SChainState :=
  { judge := .notYet
    judgeMoment := -1
    judgeAction := none
    curAreaIdx := 0
    curSegmentIdx := 0
    pressing := none
    areaJudgeActions := List.replicate c.totalAreaNum none }

/-- `SimaiSlideChain._can_skip_area` (simai.py lines 382-404). -/
def canSkipArea (c : SChain P) (curAreaIdx : ℕ) (pressing : Option Pad) :
    Bool :=
  if c.totalAreaNum - 1 ≤ curAreaIdx then
    -- last area (avoid IndexError)
    false
  else if pressing.isSome then
    true
  else
    match c.segmentInfos with
    | [info] =>
        if info.isSpecialL then
          decide (curAreaIdx ≠ 1 ∧ curAreaIdx ≠ 3)
        else if info.isL then
          decide (curAreaIdx ≠ 1)
        else if 4 ≤ c.totalAreaNum then true
        else decide (curAreaIdx ≠ c.totalAreaNum - 2)
    | _ =>
        if 4 ≤ c.totalAreaNum then true
        else decide (curAreaIdx ≠ c.totalAreaNum - 2)

/-- First pad of an area whose pad is currently pressed, with the pressing
action (`for pad in judge_sequence[idx]: if pad_states[pad] is not None`).
Judge-sequence `frozenset`s are modelled as lists, fixing one iteration
order. -/
def areaEntryHit (area : List Pad) (ps : Pad → Option ℕ) : Option (Pad × ℕ) :=
  (area.filterMap fun pad => (ps pad).map fun a => (pad, a)).head?

/-- Like `areaEntryHit` but a pad released this tick also counts
(`pad_states[pad] is not None or pad_up_this_tick[pad] is not None`); the
reported action is `pad_states[pad] or pad_up_this_tick[pad]`. -/
def areaSkipHit (area : List Pad) (ps pu : Pad → Option ℕ) :
    Option (Pad × ℕ) :=
  (area.filterMap fun pad => ((ps pad).or (pu pad)).map fun a => (pad, a)).head?

/-- The state mutation of the pad-down entry branch of
`_progress_slide_once`. -/
def entryAdvance (c : SChain P) (st : SChainState) (now : ℚ) (pad : Pad)
    (act : ℕ) : SChainState :=
  let st1 := { st with
    pressing := some pad
    areaJudgeActions := st.areaJudgeActions.set st.curAreaIdx (some (act, now)) }
  let st2 :=
    if c.totalAreaNum - 1 ≤ st1.curAreaIdx then
      { st1 with curAreaIdx := st1.curAreaIdx + 1, judgeAction := some act }
    else st1
  if c.partition.getD st2.curAreaIdx false then
    { st2 with curSegmentIdx := st2.curSegmentIdx + 1 }
  else st2

/-- The state mutation of the skip branch of `_progress_slide_once`
(`jAct` is `pad_states[pad]`, which may be `None` when the pad was only
released this tick). -/
def skipAdvance (c : SChain P) (st : SChainState) (now : ℚ) (pad : Pad)
    (logAct : ℕ) (jAct : Option ℕ) : SChainState :=
  let cur1 := st.curAreaIdx + 1
  let st1 := { st with
    pressing := some pad
    curAreaIdx := cur1
    areaJudgeActions := st.areaJudgeActions.set cur1 (some (logAct, now)) }
  let st2 :=
    if c.totalAreaNum - 1 ≤ cur1 then
      { st1 with curAreaIdx := cur1 + 1, judgeAction := jAct }
    else st1
  if c.partition.getD st2.curAreaIdx false then
    { st2 with curSegmentIdx := st2.curSegmentIdx + 1 }
  else st2

/-- The trailing skip attempt of `_progress_slide_once`. -/
def trySkipArea (c : SChain P) (st : SChainState) (now : ℚ)
    (ps pu : Pad → Option ℕ) : Bool × SChainState :=
  if canSkipArea c st.curAreaIdx st.pressing then
    match areaSkipHit (c.judgeSequence.getD (st.curAreaIdx + 1) []) ps pu with
    | some (pad, act) => (true, skipAdvance c st now pad act (ps pad))
    | none => (false, st)
  else (false, st)

/-- `SimaiSlideChain._progress_slide_once` (simai.py lines 414-459). -/
def progressOnce (c : SChain P) (st : SChainState) (now : ℚ)
    (ps pu : Pad → Option ℕ) : Bool × SChainState :=
  match st.pressing with
  | none =>
      match areaEntryHit (c.judgeSequence.getD st.curAreaIdx []) ps with
      | some (pad, act) => (true, entryAdvance c st now pad act)
      | none => trySkipArea c st now ps pu
  | some pressPad =>
      if (ps pressPad).isNone then
        (true, { st with pressing := none, curAreaIdx := st.curAreaIdx + 1 })
      else trySkipArea c st now ps pu

lemma entryAdvance_pressing (c : SChain P) (st : SChainState) (now : ℚ)
    (pad : Pad) (act : ℕ) :
    (entryAdvance c st now pad act).pressing = some pad := by
  simp only [entryAdvance]
  split <;> split <;> rfl

lemma entryAdvance_cur (c : SChain P) (st : SChainState) (now : ℚ)
    (pad : Pad) (act : ℕ) :
    (entryAdvance c st now pad act).curAreaIdx = st.curAreaIdx ∨
    (entryAdvance c st now pad act).curAreaIdx = st.curAreaIdx + 1 := by
  simp only [entryAdvance]
  split <;> split
  · right; rfl
  · right; rfl
  · left; rfl
  · left; rfl

lemma skipAdvance_cur (c : SChain P) (st : SChainState) (now : ℚ) (pad : Pad)
    (logAct : ℕ) (jAct : Option ℕ) :
    st.curAreaIdx < (skipAdvance c st now pad logAct jAct).curAreaIdx := by
  simp only [skipAdvance]
  split <;> split <;> dsimp only <;> omega

lemma trySkipArea_true (c : SChain P) (st : SChainState) (now : ℚ)
    (ps pu : Pad → Option ℕ) (st' : SChainState)
    (h : trySkipArea c st now ps pu = (true, st')) :
    st.curAreaIdx < st'.curAreaIdx := by
  unfold trySkipArea at h
  split at h
  · split at h
    · rename_i pad act heq
      simp only [Prod.mk.injEq, true_and] at h
      rw [← h]
      exact skipAdvance_cur c st now _ _ _
    · simp at h
  · simp at h

lemma progressOnce_true_step (c : SChain P) (st : SChainState) (now : ℚ)
    (ps pu : Pad → Option ℕ) (st' : SChainState)
    (h : progressOnce c st now ps pu = (true, st')) :
    (st'.curAreaIdx = st.curAreaIdx ∧ st.pressing = none ∧
      st'.pressing.isSome = true) ∨
    st.curAreaIdx < st'.curAreaIdx := by
  unfold progressOnce at h
  cases hp : st.pressing with
  | none =>
    rw [hp] at h
    dsimp only at h
    cases hhit : areaEntryHit (c.judgeSequence.getD st.curAreaIdx []) ps with
    | some padAct =>
      rw [hhit] at h
      obtain ⟨pad, act⟩ := padAct
      dsimp only at h
      simp only [Prod.mk.injEq, true_and] at h
      rcases entryAdvance_cur c st now pad act with hc | hc
      · left
        refine ⟨by rw [← h]; exact hc, rfl, ?_⟩
        rw [← h, entryAdvance_pressing]
        rfl
      · right
        rw [← h, hc]
        omega
    | none =>
      rw [hhit] at h
      dsimp only at h
      exact Or.inr (trySkipArea_true c st now ps pu st' h)
  | some pressPad =>
    rw [hp] at h
    dsimp only at h
    by_cases hrel : (ps pressPad).isNone = true
    · rw [if_pos hrel] at h
      simp only [Prod.mk.injEq, true_and] at h
      right
      rw [← h]
      dsimp only
      omega
    · rw [if_neg hrel] at h
      exact Or.inr (trySkipArea_true c st now ps pu st' h)

/-- The `while self.cur_area_idx < self.total_area_num: if not
self._progress_slide_once(...): break` loop of `SimaiSlideChain.update`. -/
def progressLoop (c : SChain P) (st : SChainState) (now : ℚ)
    (ps pu : Pad → Option ℕ) : SChainState :=
  if h : st.curAreaIdx < c.totalAreaNum then
    match h2 : progressOnce c st now ps pu with
    | (true, st') => progressLoop c st' now ps pu
    | (false, st') => st'
  else st
termination_by
  2 * (c.totalAreaNum - st.curAreaIdx) + (if st.pressing.isSome then 0 else 1)
decreasing_by
  rcases progressOnce_true_step c st now ps pu st' h2 with ⟨hc, hpn, hps⟩ | hlt
  · rw [hc, hpn, hps]
    simp only [Option.isSome_none, Bool.false_eq_true, if_false, if_true]
    omega
  · have hb1 : (if st'.pressing.isSome then 0 else 1) ≤ 1 := by
      split <;> omega
    have hb2 : 0 ≤ (if st.pressing.isSome then 0 else 1) := by
      split <;> omega
    omega

/-- `SimaiSlideChain.update` (simai.py lines 354-380). -/
def slideUpdate (c : SChain P) (st : SChainState) (now : ℚ)
    (ps pu : Pad → Option ℕ) : SChainState :=
  if st.judge ≠ .notYet then st
  else if now < c.availableMoment then st
  else
    let st1 := progressLoop c st now ps pu
    if c.totalAreaNum ≤ st1.curAreaIdx then
      { st1 with
        judgeMoment := now
        judge :=
          if |now - c.criticalMoment| ≤ c.criticalDelta ∨
              |now - c.criticalMoment + SLIDE_DELTA_SHIFT| ≤ SLIDE_CRITICAL then
            .critical
          else .bad }
    else if c.endMoment + SLIDE_AVAILABLE < now then
      { st1 with judge := .bad, judgeMoment := now }
    else st1

/-! ### Claim C2 -/

/-- **C2.** For a SlideChain that is still unjudged and inside its
availability window, `update(now, …)` judges as follows: when the
progression loop drives `cur_area_idx` to `total_area_num`, the note is
judged at `judge_moment = now`, Critical if and only if
`|now − critical_moment| ≤ critical_delta` or
`|now − critical_moment + SLIDE_DELTA_SHIFT| ≤ SLIDE_CRITICAL`, and Bad
otherwise; independently, if the loop leaves the cursor short of
`total_area_num` and `now > end_moment + SLIDE_AVAILABLE`, the judge is set
to Bad with `judge_moment = now` (`SimaiSlideChain.update`, simai.py). -/
theorem C2_slideUpdate_judgement (c : SChain P) (st : SChainState) (now : ℚ)
    (ps pu : Pad → Option ℕ) (h1 : st.judge = .notYet)
    (h2 : c.availableMoment ≤ now) :
    (c.totalAreaNum ≤ (progressLoop c st now ps pu).curAreaIdx →
      (slideUpdate c st now ps pu).judgeMoment = now ∧
      ((slideUpdate c st now ps pu).judge = .critical ↔
        |now - c.criticalMoment| ≤ c.criticalDelta ∨
        |now - c.criticalMoment + SLIDE_DELTA_SHIFT| ≤ SLIDE_CRITICAL) ∧
      ((slideUpdate c st now ps pu).judge = .bad ↔
        ¬(|now - c.criticalMoment| ≤ c.criticalDelta ∨
          |now - c.criticalMoment + SLIDE_DELTA_SHIFT| ≤ SLIDE_CRITICAL))) ∧
    ((progressLoop c st now ps pu).curAreaIdx < c.totalAreaNum →
      c.endMoment + SLIDE_AVAILABLE < now →
      (slideUpdate c st now ps pu).judge = .bad ∧
      (slideUpdate c st now ps pu).judgeMoment = now) := by
  have hng : ¬(st.judge ≠ .notYet) := by simp [h1]
  have hnl : ¬(now < c.availableMoment) := not_lt.mpr h2
  constructor
  · intro hdone
    simp only [slideUpdate, if_neg hng, if_neg hnl, if_pos hdone]
    refine ⟨by simp, ?_, ?_⟩
    · by_cases hcrit : |now - c.criticalMoment| ≤ c.criticalDelta ∨
          |now - c.criticalMoment + SLIDE_DELTA_SHIFT| ≤ SLIDE_CRITICAL
      · simp [hcrit]
      · simp [hcrit]
    · by_cases hcrit : |now - c.criticalMoment| ≤ c.criticalDelta ∨
          |now - c.criticalMoment + SLIDE_DELTA_SHIFT| ≤ SLIDE_CRITICAL
      · simp [hcrit]
      · simp [hcrit]
  · intro hnot hlate
    have hn : ¬(c.totalAreaNum ≤ (progressLoop c st now ps pu).curAreaIdx) :=
      not_le.mpr hnot
    simp only [slideUpdate, if_neg hng, if_neg hnl, if_neg hn, if_pos hlate]
    exact ⟨by simp, by simp⟩

/-- Witness for C2 at a concrete input: a one-segment straight slide with
two judge areas, activated at moment 15 (so `available_moment = 0`),
inspected at `now = 300`. -/
theorem C2_slideUpdate_judgement_witness :
    let info : SlideInfo Unit :=
      mkSlideInfo "1-2" 1 2 .straight () () [[⟨1⟩], [⟨2⟩]] [] (1/2)
    let c := mkSChain 15 (info, 12) [] 3
    (c.totalAreaNum ≤
        (progressLoop c (SChainState.init c) 300 (fun _ => none)
          (fun _ => none)).curAreaIdx →
      (slideUpdate c (SChainState.init c) 300 (fun _ => none)
          (fun _ => none)).judgeMoment = 300 ∧
      ((slideUpdate c (SChainState.init c) 300 (fun _ => none)
          (fun _ => none)).judge = .critical ↔
        |(300:ℚ) - c.criticalMoment| ≤ c.criticalDelta ∨
        |(300:ℚ) - c.criticalMoment + SLIDE_DELTA_SHIFT| ≤ SLIDE_CRITICAL) ∧
      ((slideUpdate c (SChainState.init c) 300 (fun _ => none)
          (fun _ => none)).judge = .bad ↔
        ¬(|(300:ℚ) - c.criticalMoment| ≤ c.criticalDelta ∨
          |(300:ℚ) - c.criticalMoment + SLIDE_DELTA_SHIFT| ≤ SLIDE_CRITICAL))) ∧
    ((progressLoop c (SChainState.init c) 300 (fun _ => none)
        (fun _ => none)).curAreaIdx < c.totalAreaNum →
      c.endMoment + SLIDE_AVAILABLE < 300 →
      (slideUpdate c (SChainState.init c) 300 (fun _ => none)
          (fun _ => none)).judge = .bad ∧
      (slideUpdate c (SChainState.init c) 300 (fun _ => none)
          (fun _ => none)).judgeMoment = 300) := by
  intro info c
  apply C2_slideUpdate_judgement c (SChainState.init c) 300
    (fun _ => none) (fun _ => none) rfl
  show c.availableMoment ≤ 300
  norm_num [c, mkSChain, SLIDE_LEADING, JUDGE_TPF]

/-! ### Claim C5 -/

/-- The skip rule exactly as the claim words it: current area not last, and
either `pressing` is set, or the slide is long enough
(`total_area_num ≥ 4`), or it is neither the penultimate-area-of-a-length-3
case nor a forbidden L-shape area (L-shapes forbid `cur_area_idx = 1`,
special L-shapes additionally `cur_area_idx = 3`). -/
def canSkipClaim (c : SChain P) (cur : ℕ) (pressing : Option Pad) : Prop :=
  cur + 1 < c.totalAreaNum ∧
  (pressing.isSome = true ∨ 4 ≤ c.totalAreaNum ∨
    (¬(c.totalAreaNum = 3 ∧ cur = 1) ∧
     ¬((c.segmentInfos.any fun i => i.isL) = true ∧ cur = 1) ∧
     ¬((c.segmentInfos.any fun i => i.isSpecialL) = true ∧
        (cur = 1 ∨ cur = 3))))

/-- A single-segment L-shape (shape `1V72`) slide chain: six judge areas
`A1, {A8,B8}, A7, B8, B1, A2`; `is_L = true`, `is_special_L = false`. -/
def lInfoCex : SlideInfo Unit :=
  mkSlideInfo "1V72" 1 2 .lShapeCCW () ()
    [[⟨1⟩], [⟨0⟩, ⟨8⟩], [⟨7⟩], [⟨8⟩], [⟨9⟩], [⟨2⟩]] [] 0

def lChainCex : SChain Unit := mkSChain 0 (lInfoCex, 24) [] 4

/-- **C5, counterexample.**  For the single-segment L-shape chain above at
`cur_area_idx = 1` with nothing pressed, `_can_skip_area` returns `False`
(the L-shape rule forbids skipping the second area), while the claim's
formula — whose disjunct "the slide is long enough (total_area_num ≥ 4)"
bypasses the L-shape rule (here `total_area_num = 6`) — says skipping is
allowed. -/
theorem C5_counterexample :
    canSkipArea lChainCex 1 none = false ∧ canSkipClaim lChainCex 1 none := by
  constructor
  · decide
  · constructor
    · decide
    · right; left; decide

/-- **C5, amended.**  `_can_skip_area` returns `True` exactly when: the
current area is not the last, and either `pressing` is set, or — for a
single-segment special L-shape — `cur_area_idx ∉ {1, 3}`, or — for a
single-segment plain L-shape — `cur_area_idx ≠ 1`, or — in every other
case (chains of several segments, or a single non-L segment) —
`total_area_num ≥ 4` or `cur_area_idx` is not the penultimate area.
The L-shape rules apply only to single-segment slides and are *not*
overridden by `total_area_num ≥ 4` (`SimaiSlideChain._can_skip_area`). -/
theorem C5_canSkipArea_amended (c : SChain P) (cur : ℕ)
    (pressing : Option Pad) :
    canSkipArea c cur pressing = true ↔
      (cur + 1 < c.totalAreaNum ∧
       (pressing.isSome = true ∨
        (∃ info, c.segmentInfos = [info] ∧ info.isSpecialL = true ∧
          cur ≠ 1 ∧ cur ≠ 3) ∨
        (∃ info, c.segmentInfos = [info] ∧ info.isSpecialL = false ∧
          info.isL = true ∧ cur ≠ 1) ∨
        ((∀ info, c.segmentInfos = [info] →
            info.isSpecialL = false ∧ info.isL = false) ∧
         (4 ≤ c.totalAreaNum ∨ cur ≠ c.totalAreaNum - 2)))) := by
  unfold canSkipArea
  by_cases hlast : c.totalAreaNum - 1 ≤ cur
  · rw [if_pos hlast]
    simp only [Bool.false_eq_true, false_iff]
    rintro ⟨hc, -⟩
    omega
  · rw [if_neg hlast]
    have hcur : cur + 1 < c.totalAreaNum := by omega
    by_cases hpress : pressing.isSome = true
    · rw [if_pos hpress]
      simp only [true_iff]
      exact ⟨hcur, Or.inl hpress⟩
    · rw [if_neg hpress]
      cases hseg : c.segmentInfos with
      | nil =>
        dsimp only
        constructor
        · intro h
          refine ⟨hcur, Or.inr <| Or.inr <| Or.inr ⟨?_, ?_⟩⟩
          · intro info hinfo
            exact absurd hinfo (by simp)
          · by_cases h4 : 4 ≤ c.totalAreaNum
            · exact Or.inl h4
            · rw [if_neg h4] at h
              exact Or.inr (by simpa using h)
        · rintro ⟨-, hins | ⟨info, hinfo, -⟩ | ⟨info, hinfo, -⟩ | ⟨-, hd⟩⟩
          · exact absurd hins hpress
          · exact absurd hinfo (by simp)
          · exact absurd hinfo (by simp)
          · by_cases h4 : 4 ≤ c.totalAreaNum
            · rw [if_pos h4]
            · rw [if_neg h4]
              rcases hd with h4' | hne
              · exact absurd h4' h4
              · simpa using hne
      | cons info rest =>
        cases rest with
        | nil =>
          dsimp only
          by_cases hsp : info.isSpecialL = true
          · rw [if_pos hsp]
            constructor
            · intro h
              exact ⟨hcur, Or.inr <| Or.inl ⟨info, rfl, hsp, by simpa using h⟩⟩
            · rintro ⟨-, hins | ⟨info', hinfo', hsp', h1, h3⟩ | ⟨info', hinfo', hsp', -⟩ | ⟨hall, -⟩⟩
              · exact absurd hins hpress
              · obtain rfl : info' = info := by simpa using hinfo'.symm
                simp [h1, h3]
              · obtain rfl : info' = info := by simpa using hinfo'.symm
                rw [hsp] at hsp'; cases hsp'
              · exact absurd (hall info rfl).1 (by simp [hsp])
          · rw [if_neg hsp]
            by_cases hl : info.isL = true
            · rw [if_pos hl]
              constructor
              · intro h
                refine ⟨hcur, Or.inr <| Or.inr <| Or.inl
                  ⟨info, rfl, by simpa using hsp, hl, by simpa using h⟩⟩
              · rintro ⟨-, hins | ⟨info', hinfo', hsp', -, -⟩ | ⟨info', hinfo', -, -, h1⟩ | ⟨hall, -⟩⟩
                · exact absurd hins hpress
                · obtain rfl : info' = info := by simpa using hinfo'.symm
                  exact absurd hsp' hsp
                · obtain rfl : info' = info := by simpa using hinfo'.symm
                  simp [h1]
                · exact absurd (hall info rfl).2 (by simp [hl])
            · rw [if_neg hl]
              constructor
              · intro h
                refine ⟨hcur, Or.inr <| Or.inr <| Or.inr ⟨?_, ?_⟩⟩
                · intro info' hinfo'
                  obtain rfl : info' = info := by simpa using hinfo'.symm
                  exact ⟨by simpa using hsp, by simpa using hl⟩
                · by_cases h4 : 4 ≤ c.totalAreaNum
                  · exact Or.inl h4
                  · rw [if_neg h4] at h
                    exact Or.inr (by simpa using h)
              · rintro ⟨-, hins | ⟨info', hinfo', hsp', -, -⟩ | ⟨info', hinfo', -, hl', -⟩ | ⟨-, hd⟩⟩
                · exact absurd hins hpress
                · obtain rfl : info' = info := by simpa using hinfo'.symm
                  exact absurd hsp' hsp
                · obtain rfl : info' = info := by simpa using hinfo'.symm
                  exact absurd hl' hl
                · by_cases h4 : 4 ≤ c.totalAreaNum
                  · rw [if_pos h4]
                  · rw [if_neg h4]
                    rcases hd with h4' | hne
                    · exact absurd h4' h4
                    · simpa using hne
        | cons info2 rest2 =>
          dsimp only
          constructor
          · intro h
            refine ⟨hcur, Or.inr <| Or.inr <| Or.inr ⟨?_, ?_⟩⟩
            · intro info' hinfo'
              exact absurd hinfo' (by simp)
            · by_cases h4 : 4 ≤ c.totalAreaNum
              · exact Or.inl h4
              · rw [if_neg h4] at h
                exact Or.inr (by simpa using h)
          · rintro ⟨-, hins | ⟨info', hinfo', -⟩ | ⟨info', hinfo', -⟩ | ⟨-, hd⟩⟩
            · exact absurd hins hpress
            · exact absurd hinfo' (by simp)
            · exact absurd hinfo' (by simp)
            · by_cases h4 : 4 ≤ c.totalAreaNum
              · rw [if_pos h4]
              · rw [if_neg h4]
                rcases hd with h4' | hne
                · exact absurd h4' h4
                · simpa using hne

/-! ## Wifi slides (`slides.WifiInfo`, `simai.SimaiWifi`) -/

/-- `slides.WifiInfo`: geometry/judgement data of the three-lane wifi
slide (lane paths and judge sequences as transformed inputs; render-only
fields omitted, `criticalProportion` carried as data like `SlideInfo`'s). -/
structure WifiInfo (P : Type u) where
  key : String
  start : ℤ
  endp : ℤ
  endCCW : ℤ
  endCW : ℤ
  triPath : P × P × P
  path : P
  diRealPath : P × P
  triJudgeSequence : List (List Pad) × List (List Pad) × List (List Pad)
  padEnterTime : List (Pad × ℚ)
  criticalProportion : ℚ

/-- Python's `x % 8 or 8`. -/
def mod8or8 (x : ℤ) : ℤ := if x % 8 = 0 then 8 else x % 8

/-- `WifiInfo.__init__` (slides.py lines 733-776). -/
def mkWifiInfo (key : String) (start endp : ℤ) (triPath : P × P × P)
    (diRealPath : P × P)
    (triJudgeSequence : List (List Pad) × List (List Pad) × List (List Pad))
    (padEnterTime : List (Pad × ℚ)) (criticalProportion : ℚ) : WifiInfo P :=
  { key := key
    start := start
    endp := endp
    endCCW := mod8or8 (endp - 1)
    endCW := mod8or8 (endp + 1)
    triPath := triPath
    path := triPath.2.1
    diRealPath := diRealPath
    triJudgeSequence := triJudgeSequence
    padEnterTime := padEnterTime.mergeSort (fun x y => x.2 ≤ y.2)
    criticalProportion := criticalProportion }

/-- Immutable data of a `SimaiWifi` as computed by its `__init__`
(simai.py lines 463-498). -/
structure MWifi (P : Type u) where
  moment : ℚ
  shape : String
  info : WifiInfo P
  start : ℤ
  endp : ℤ
  availableMoment : ℚ
  waitDuration : ℚ
  shootMoment : ℚ
  duration : ℚ
  endMoment : ℚ
  lastAreaDuration : ℚ
  criticalMoment : ℚ
  criticalDelta : ℚ
  totalAreaNum : ℕ
  afterSlide : Bool

/-- `SimaiWifi.__init__`. -/
def mkWifi (moment : ℚ) (shape : String) (info : WifiInfo P)
    (wait duration : ℚ) : MWifi P :=
  let lastAreaDuration := (1 - info.criticalProportion) * duration
  let endMoment := moment + wait + duration
  { moment := moment
    shape := shape
    info := info
    start := info.start
    endp := info.endp
    availableMoment := moment - SLIDE_LEADING
    waitDuration := wait
    shootMoment := moment + wait
    duration := duration
    endMoment := endMoment
    lastAreaDuration := lastAreaDuration
    criticalMoment := endMoment - lastAreaDuration
    criticalDelta := min SLIDE_AVAILABLE (SLIDE_CRITICAL + lastAreaDuration / 4)
    totalAreaNum := info.triJudgeSequence.2.1.length
    afterSlide := false }

/-! ## Claim C10: slide `finish` and retirement -/

/-- `SimaiSlideChain.finish` (simai.py lines 351-352). -/
def slideFinish (c : SChain P) (st : SChainState) (now : ℚ) : Bool :=
  decide (c.endMoment + SLIDE_AVAILABLE < now) || decide (st.judge = .bad)

/-- `SimaiWifi.finish` (simai.py lines 506-507); `judge` is the wifi
note's current judge state. -/
def wifiFinish (w : MWifi P) (judge : JudgeResult) (now : ℚ) : Bool :=
  decide (w.endMoment + SLIDE_AVAILABLE < now) || decide (judge = .bad)

/-- Steps 7-8 of `JudgeManager.tick` restricted to slide-chain notes: after
the updates, notes with `finish(now)` are moved to the finished list and
removed from the active list; finished notes judged Bad produce a muri
record.  Returns (remaining active, finished, muri-emitting). -/
def retireSlides (active : List (SChain P × SChainState)) (now : ℚ) :
    List (SChain P × SChainState) × List (SChain P × SChainState) ×
      List (SChain P × SChainState) :=
  let finished := active.filter fun x => slideFinish x.1 x.2 now
  let remaining := active.filter fun x => !slideFinish x.1 x.2 now
  let muri := finished.filter fun x => decide (x.2.judge = .bad)
  (remaining, finished, muri)

/-- **C10.** For every SlideChain or Wifi note, `finish(now)` returns True
exactly when `now > end_moment + SLIDE_AVAILABLE` or the judge state is
Bad.  Consequently, in the engine's retirement step, a slide judged
Critical stays in the active list exactly while `now ≤ end_moment +
SLIDE_AVAILABLE`, while a slide judged Bad is moved to the finished list
(and its muri record emitted) on the very tick. -/
theorem C10_finish_retirement (c : SChain P) (st : SChainState) (w : MWifi P)
    (wjudge : JudgeResult) (now : ℚ)
    (active : List (SChain P × SChainState)) :
    (slideFinish c st now = true ↔
      c.endMoment + SLIDE_AVAILABLE < now ∨ st.judge = .bad) ∧
    (wifiFinish w wjudge now = true ↔
      w.endMoment + SLIDE_AVAILABLE < now ∨ wjudge = .bad) ∧
    (st.judge = .critical →
      ((c, st) ∈ (retireSlides active now).1 ↔
        (c, st) ∈ active ∧ now ≤ c.endMoment + SLIDE_AVAILABLE)) ∧
    (st.judge = .bad → (c, st) ∈ active →
      (c, st) ∈ (retireSlides active now).2.1 ∧
      (c, st) ∈ (retireSlides active now).2.2 ∧
      (c, st) ∉ (retireSlides active now).1) := by
  have hsf : ∀ st' : SChainState, slideFinish c st' now = true ↔
      c.endMoment + SLIDE_AVAILABLE < now ∨ st'.judge = .bad := by
    intro st'
    simp [slideFinish]
  refine ⟨hsf st, by simp [wifiFinish], ?_, ?_⟩
  · intro hcrit
    have hnotbad : ¬(st.judge = .bad) := by simp [hcrit]
    constructor
    · intro hmem
      rcases List.mem_filter.mp hmem with ⟨hmem', hfin⟩
      refine ⟨hmem', ?_⟩
      by_contra hlt
      have : slideFinish c st now = true := (hsf st).mpr (Or.inl (not_le.mp hlt))
      simp [this] at hfin
    · rintro ⟨hmem, hle⟩
      refine List.mem_filter.mpr ⟨hmem, ?_⟩
      have : ¬(slideFinish c st now = true) := by
        rw [hsf st]
        push_neg
        exact ⟨hle, hnotbad⟩
      simp [Bool.not_eq_true] at this ⊢
      simp [this]
  · intro hbad hmem
    have hfin : slideFinish c st now = true := (hsf st).mpr (Or.inr hbad)
    refine ⟨List.mem_filter.mpr ⟨hmem, hfin⟩, ?_, ?_⟩
    · exact List.mem_filter.mpr ⟨List.mem_filter.mpr ⟨hmem, hfin⟩, by simp [hbad]⟩
    · intro hrem
      rcases List.mem_filter.mp hrem with ⟨-, hneg⟩
      simp [hfin] at hneg

/-- Witness for C10 at a concrete input: the straight chain of the C2
witness, judged Bad, at `now = 0`. -/
theorem C10_finish_retirement_witness :
    let info : SlideInfo Unit :=
      mkSlideInfo "1-2" 1 2 .straight () () [[⟨1⟩], [⟨2⟩]] [] (1/2)
    let c := mkSChain 15 (info, 12) [] 3
    let st : SChainState :=
      { SChainState.init c with judge := .bad, judgeMoment := 0 }
    (c, st) ∈ (retireSlides [(c, st)] 0).2.1 ∧
    (c, st) ∈ (retireSlides [(c, st)] 0).2.2 ∧
    (c, st) ∉ (retireSlides [(c, st)] 0).1 := by
  intro info c st
  exact (C10_finish_retirement c st
    (mkWifi 0 "1w5" (mkWifiInfo "1w5" 1 5 ((), (), ()) ((), ())
      ([], [], []) [] 0) 0 0) .notYet 0 [(c, st)]).2.2.2 rfl (by simp)

/-! ## Note model and note-to-action converter (`majparse.NoteActionConverter`)

Notes are tagged variants carrying the fields the converter reads; each
note is identified by its chart position, which actions store as their
`source`. -/

inductive MNote (P : Type u) (V : Type v) where
  | tap (moment : ℚ) (idx : ℤ) (isSlideHead : Bool)
  | touch (moment : ℚ) (pad : Pad) (onSlide : Bool)
  | touchGroup (moment : ℚ) (center : V) (radius : ℚ) (onSlide : Bool)
  | hold (moment duration : ℚ) (idx : ℤ) (tailOnSlideHead : Bool)
  | touchHold (moment duration : ℚ) (pad : Pad)
  | slideChain (c : SChain P)
  | wifi (w : MWifi P)

/-- `segment_infos[0].pad_enter_time[0].t * durations[0]` (the time the
guiding star spends in the first area); 0 for the empty cases on which the
Python indexing would raise. -/
def firstAreaDuration (c : SChain P) : ℚ :=
  (((c.segmentInfos.head?.bind fun info => info.padEnterTime.head?).map
      Prod.snd).getD 0) * (c.durations.head?.getD 0)

/-- The action list `NoteActionConverter.generate_action` emits for the
chart note at position `i` (majparse.py lines 594-657), before the final
stable sort. -/
def genNote (padVec : Pad → V) (i : ℕ) : MNote P V → List (MAction P V)
  | .tap m idx isHead =>
      if isHead then []
      else [mkActionPress i m 0 (padVec (padOfIdx idx)) HAND_RADIUS_NORMAL false]
  | .touch m pad onSlide =>
      if onSlide then []
      else [mkActionPress i m 0 (padVec pad) HAND_RADIUS_NORMAL false]
  | .touchGroup m center radius onSlide =>
      if onSlide then [] else [mkActionPress i m 0 center radius false]
  | .hold m dur idx tail =>
      [mkActionPress i m dur (padVec (padOfIdx idx)) HAND_RADIUS_NORMAL tail]
  | .touchHold m dur pad =>
      [mkActionPress i m dur (padVec pad) HAND_RADIUS_NORMAL false]
  | .slideChain c =>
      let epd : List (MAction P V) :=
        if c.afterSlide then []
        else [mkActionExtraPadDown i c.shootMoment (padOfIdx c.start)
                (min EXTRA_PADDOWN_DELAY (firstAreaDuration c))]
      let pack := c.segmentInfos.zip (c.durations.zip c.segmentShootMoments)
      epd ++
        (pack.dropLast.map fun x =>
          mkActionSlide i x.2.2 x.2.1 x.1.realPath HAND_RADIUS_NORMAL true
            false) ++
        ((pack.getLast?.map fun x =>
          mkActionSlide i x.2.2 x.2.1 x.1.realPath HAND_RADIUS_NORMAL
            c.beforeSlide false).toList)
  | .wifi w =>
      let epd : List (MAction P V) :=
        if w.afterSlide then []
        else [mkActionExtraPadDown i w.shootMoment (padOfIdx w.start)
                (min EXTRA_PADDOWN_DELAY
                  (((w.info.padEnterTime.head?.map Prod.snd).getD 0) *
                    w.duration))]
      epd ++
        [mkActionSlide i w.shootMoment w.duration w.info.diRealPath.1
          HAND_RADIUS_WIFI true true,
         mkActionSlide i w.shootMoment w.duration w.info.diRealPath.2
          HAND_RADIUS_WIFI true true]

/-- `generate_action`: concatenate per-note actions in chart order, then
stable-sort by moment (`result.sort(key=lambda x: x.moment)`). -/
def generateActions (padVec : Pad → V) (chart : List (MNote P V)) :
    List (MAction P V) :=
  (chart.enum.flatMap fun x => genNote padVec x.1 x.2).mergeSort
    fun a b => decide (a.moment ≤ b.moment)

lemma genNote_source (padVec : Pad → V) (i : ℕ) (n : MNote P V)
    (a : MAction P V) (ha : a ∈ genNote padVec i n) : a.source = i := by
  cases n with
  | tap m idx isHead =>
    simp only [genNote] at ha
    split at ha
    · simp at ha
    · simp only [List.mem_singleton] at ha
      subst ha; rfl
  | touch m pad onSlide =>
    simp only [genNote] at ha
    split at ha
    · simp at ha
    · simp only [List.mem_singleton] at ha
      subst ha; rfl
  | touchGroup m center radius onSlide =>
    simp only [genNote] at ha
    split at ha
    · simp at ha
    · simp only [List.mem_singleton] at ha
      subst ha; rfl
  | hold m dur idx tail =>
    simp only [genNote] at ha
    simp only [List.mem_singleton] at ha
    subst ha; rfl
  | touchHold m dur pad =>
    simp only [genNote] at ha
    simp only [List.mem_singleton] at ha
    subst ha; rfl
  | slideChain c =>
    simp only [genNote] at ha
    simp only [List.mem_append] at ha
    rcases ha with (ha | ha) | ha
    · split at ha
      · simp at ha
      · simp only [List.mem_singleton] at ha
        subst ha; rfl
    · rcases List.mem_map.mp ha with ⟨x, -, rfl⟩
      rfl
    · cases hlast : (c.segmentInfos.zip
          (c.durations.zip c.segmentShootMoments)).getLast? with
      | none => rw [hlast] at ha; simp at ha
      | some x =>
        rw [hlast] at ha
        simp at ha
        subst ha; rfl
  | wifi w =>
    simp only [genNote] at ha
    simp only [List.mem_append, List.mem_cons, List.mem_singleton] at ha
    rcases ha with ha | rfl | rfl | hfalse
    · split at ha
      · simp at ha
      · simp only [List.mem_singleton] at ha
        subst ha; rfl
    · rfl
    · rfl
    · simp at hfalse

lemma dropLast_getLast_toList_length (l : List α) (f : α → β) :
    l.dropLast.length + ((l.getLast?.map f).toList).length = l.length := by
  cases l with
  | nil => simp
  | cons y ys =>
    rw [List.getLast?_eq_getLast (y :: ys) (by simp)]
    simp

/-! ### Claim C6 -/

/-- **C6.** For a chart having a Tap flagged `is_slide_head` at position
`i` and a SlideChain with `after_slide = false` at position `j`:
`generate_action` emits *no* action at all for the Tap (in particular no
Press), and for the SlideChain it emits (in emission order, which the
stable sort keeps for equal moments) one ExtraPadDown at `shoot_moment`
delayed by `min(EXTRA_PADDOWN_DELAY, first_area_duration)`, followed by one
Slide per segment at the segment's shoot moment and duration — every
intermediate segment tailless and the final segment tailless iff
`before_slide` — so one ExtraPadDown plus `len(segment_infos)` Slides in
total (`NoteActionConverter.generate_action`, majparse.py). -/
theorem C6_converter_slide_head (padVec : Pad → V) (chart : List (MNote P V))
    (i j : ℕ) (m : ℚ) (idx : ℤ) (c : SChain P)
    (hi : chart[i]? = some (.tap m idx true))
    (hafter : c.afterSlide = false)
    (hlen : c.durations.length = c.segmentInfos.length)
    (hlen2 : c.segmentInfos.length ≤ c.segmentShootMoments.length) :
    (∀ a ∈ generateActions padVec chart, a.source ≠ i) ∧
    genNote padVec j (.slideChain c) =
      mkActionExtraPadDown j c.shootMoment (padOfIdx c.start)
        (min EXTRA_PADDOWN_DELAY (firstAreaDuration c)) ::
      ((c.segmentInfos.zip (c.durations.zip c.segmentShootMoments)).dropLast.map
        fun x => mkActionSlide j x.2.2 x.2.1 x.1.realPath HAND_RADIUS_NORMAL
          true false) ++
      (((c.segmentInfos.zip
          (c.durations.zip c.segmentShootMoments)).getLast?.map fun x =>
        mkActionSlide j x.2.2 x.2.1 x.1.realPath HAND_RADIUS_NORMAL
          c.beforeSlide false).toList) ∧
    (genNote padVec j (.slideChain c)).length = 1 + c.segmentInfos.length := by
  have hpack : (c.segmentInfos.zip
      (c.durations.zip c.segmentShootMoments)).length =
      c.segmentInfos.length := by
    rw [List.length_zip, List.length_zip]
    omega
  refine ⟨?_, ?_, ?_⟩
  · intro a ha hsrc
    rw [generateActions, List.mem_mergeSort, List.mem_flatMap] at ha
    obtain ⟨x, hx, hax⟩ := ha
    have hsx : a.source = x.1 := genNote_source padVec x.1 x.2 a hax
    obtain ⟨xi, xn⟩ := x
    simp only at hsx
    rw [hsrc] at hsx
    subst hsx
    rw [List.mk_mem_enum_iff_getElem?, hi] at hx
    obtain rfl : MNote.tap m idx true = xn := by simpa using hx
    simp [genNote] at hax
  · simp [genNote, hafter]
  · have haux := dropLast_getLast_toList_length
      (c.segmentInfos.zip (c.durations.zip c.segmentShootMoments))
      (fun x => mkActionSlide (V := V) j x.2.2 x.2.1 x.1.realPath
        HAND_RADIUS_NORMAL c.beforeSlide false)
    simp only [genNote, hafter, Bool.false_eq_true, if_false,
      List.length_append, List.length_map, List.singleton_append,
      List.length_cons]
    omega

/-- Witness for C6 at a concrete chart: `[tap(head), slideChain]` with a
one-segment straight slide. -/
theorem C6_converter_slide_head_witness :
    let info : SlideInfo Unit :=
      mkSlideInfo "1-2" 1 2 .straight () () [[⟨1⟩], [⟨2⟩]] [(⟨1⟩, 1/4)] (1/2)
    let c := mkSChain 15 (info, 12) [] 3
    let chart : List (MNote Unit Unit) :=
      [.tap 15 1 true, .slideChain c]
    (∀ a ∈ generateActions (fun _ => ()) chart, a.source ≠ 0) ∧
    genNote (fun _ => ()) 1 (.slideChain c) =
      mkActionExtraPadDown 1 c.shootMoment (padOfIdx c.start)
        (min EXTRA_PADDOWN_DELAY (firstAreaDuration c)) ::
      ((c.segmentInfos.zip (c.durations.zip c.segmentShootMoments)).dropLast.map
        fun x => mkActionSlide 1 x.2.2 x.2.1 x.1.realPath HAND_RADIUS_NORMAL
          true false) ++
      (((c.segmentInfos.zip
          (c.durations.zip c.segmentShootMoments)).getLast?.map fun x =>
        mkActionSlide 1 x.2.2 x.2.1 x.1.realPath HAND_RADIUS_NORMAL
          c.beforeSlide false).toList) ∧
    (genNote (fun _ => ()) 1 (.slideChain c)).length =
      1 + c.segmentInfos.length := by
  intro info c chart
  exact C6_converter_slide_head (fun _ => ()) chart 0 1 15 1 c rfl rfl
    (by decide) (by decide)

/-! ### Claim C9 -/

def MAction.slidePath : MAction P V → Option P
  | .slide _ _ _ p _ _ _ => some p
  | _ => none

/-- **C9.** Every standard slide entry built by `SlideInfo._register` has
`real_path` equal to `path`: the real-hand SVG in the template data is
parsed but never stored, because `SlideInfo.__init__` executes
`self.path = self.real_path = path`.  Consequently, every Slide action the
converter generates from a standard SlideChain moves along the visual path
(`ActionSlide(..., info.real_path, ...)` with `info.real_path = info.path`). -/
theorem C9_realPath_is_visual (parse : String → P) (key : String)
    (start endp : ℤ) (type_ : SlideType) (shapeSvg : String)
    (realPathSvg : Option String) (js : List (List Pad))
    (pet : List (Pad × ℚ)) (cp : ℚ) (padVec : Pad → V) (j : ℕ) (c : SChain P)
    (hreg : ∀ info ∈ c.segmentInfos, info.realPath = info.path) :
    (registerEntry parse key start endp type_ shapeSvg realPathSvg js pet
        cp).realPath =
      (registerEntry parse key start endp type_ shapeSvg realPathSvg js pet
        cp).path ∧
    (registerEntry parse key start endp type_ shapeSvg realPathSvg js pet
        cp).path = parse shapeSvg ∧
    (∀ a ∈ genNote padVec j (.slideChain c), ∀ pth,
      a.slidePath = some pth → pth ∈ c.segmentInfos.map SlideInfo.path) := by
  refine ⟨rfl, rfl, ?_⟩
  intro a ha pth hpth
  simp only [genNote] at ha
  simp only [List.mem_append] at ha
  rcases ha with (ha | ha) | ha
  · split at ha
    · simp at ha
    · simp only [List.mem_singleton] at ha
      subst ha
      simp [mkActionExtraPadDown, MAction.slidePath] at hpth
  · rcases List.mem_map.mp ha with ⟨x, hx, rfl⟩
    have hmem : x ∈ c.segmentInfos.zip
        (c.durations.zip c.segmentShootMoments) :=
      (List.dropLast_sublist _).mem hx
    obtain ⟨x1, x2⟩ := x
    have hx1 : x1 ∈ c.segmentInfos := (List.of_mem_zip hmem).1
    simp only [mkActionSlide, MAction.slidePath, Option.some.injEq] at hpth
    subst hpth
    rw [hreg x1 hx1]
    exact List.mem_map.mpr ⟨x1, hx1, rfl⟩
  · cases hlast : (c.segmentInfos.zip
        (c.durations.zip c.segmentShootMoments)).getLast? with
    | none => rw [hlast] at ha; simp at ha
    | some x =>
      rw [hlast] at ha
      simp at ha
      subst ha
      have hmem := List.mem_of_getLast?_eq_some hlast
      obtain ⟨x1, x2⟩ := x
      have hx1 : x1 ∈ c.segmentInfos := (List.of_mem_zip hmem).1
      simp only [mkActionSlide, MAction.slidePath, Option.some.injEq] at hpth
      subst hpth
      rw [hreg x1 hx1]
      exact List.mem_map.mpr ⟨x1, hx1, rfl⟩

/-- Witness for C9 at a concrete input: a registered entry over `P := ℕ`
with `parse := String.length`, whose real-hand SVG differs from the visual
one, wrapped into a one-segment chain. -/
theorem C9_realPath_is_visual_witness :
    let info : SlideInfo ℕ :=
      registerEntry String.length "1-4" 1 4 .straight "vis" (some "realhand")
        [[⟨1⟩], [⟨2⟩]] [] (1/2)
    let c := mkSChain 15 (info, 12) [] 3
    info.realPath = info.path ∧ info.path = 3 ∧
    (∀ a ∈ genNote (fun _ => ()) 0 (.slideChain c), ∀ pth,
      a.slidePath = some pth → pth ∈ c.segmentInfos.map SlideInfo.path) := by
  intro info c
  have h := C9_realPath_is_visual String.length "1-4" 1 4 .straight "vis"
    (some "realhand") [[⟨1⟩], [⟨2⟩]] [] (1/2) (fun _ => ()) 0 c
    (by intro i hi
        have : i = info := by
          simpa [c, mkSChain] using hi
        rw [this]
        rfl)
  exact ⟨h.1, h.2.1, h.2.2⟩

/-! ## Static muri checker (`judge.StaticMuriChecker.check`)

The checker takes the flattened note sequence (touch groups expanded) and
splits it into slide chains, wifis and non-slides; here the three groups
arrive pre-split, each note tagged with a numeric id standing for its
cursor.  Records reference affected/cause notes by id. -/

inductive StNote where
  | tap (moment : ℚ) (idx : ℤ)
  | hold (moment duration : ℚ) (idx : ℤ)
  | touch (moment : ℚ) (pad : Pad)
  | touchHold (moment duration : ℚ) (pad : Pad)
  deriving DecidableEq, Repr

def StNote.moment : StNote → ℚ
  | .tap m _ => m
  | .hold m _ _ => m
  | .touch m _ => m
  | .touchHold m _ _ => m

def StNote.endMoment : StNote → ℚ
  | .tap m _ => m
  | .hold m d _ => m + d
  | .touch m _ => m
  | .touchHold m d _ => m + d

def StNote.pad : StNote → Pad
  | .tap _ idx => padOfIdx idx
  | .hold _ _ idx => padOfIdx idx
  | .touch _ p => p
  | .touchHold _ _ p => p

/-- `(moment, idx)` for the Tap/Hold notes the slide loops consider. -/
def StNote.headIdx : StNote → Option (ℚ × ℤ)
  | .tap m idx => some (m, idx)
  | .hold m _ idx => some (m, idx)
  | _ => none

inductive SRecord where
  | slideHeadTap (affected cause : ℕ) (delta : ℚ)
  | tapOnSlide (affected cause : ℕ) (delta : ℚ)
  | overlap (affected cause : ℕ)
  deriving DecidableEq, Repr

/-- The per-A-pad collide intervals of a slide chain (judge.py lines
93-105): for each segment and each group-A entry of its
`pad_enter_time`, the interval
`[max(enter − COLLIDE_EXTRA_DELTA, shoot + TAP_ON_SLIDE_THRESHOLD),
enter + COLLIDE_THRESHOLD]`. -/
def collideEntries (s : SChain P) : List (Pad × ℚ × ℚ × ℚ) :=
  (s.segmentInfos.zip (s.durations.zip s.segmentShootMoments)).flatMap fun x =>
    (x.1.padEnterTime.filter fun pt => pt.1.isGroupA).map fun pt =>
      let enter := x.2.2 + pt.2 * x.2.1
      (pt.1, enter,
        max (enter - COLLIDE_EXTRA_DELTA) (s.shootMoment + TAP_ON_SLIDE_THRESHOLD),
        enter + COLLIDE_THRESHOLD)

/-- The records the slide loop emits for one `(slide, note)` pair
(judge.py lines 107-126): the pre-filter, the slide-head-tap check, the
per-area collide checks and the stretched final-area check. -/
def slideNoteRecords (si : ℕ × SChain P) (ni : ℕ × StNote) : List SRecord :=
  match ni.2.headIdx with
  | none => []
  | some (m, idx) =>
      if m < si.2.shootMoment ∨ si.2.endMoment + COLLIDE_THRESHOLD < m then []
      else
        (if idx = si.2.start ∧ TAP_ON_SLIDE_THRESHOLD ≤ m - si.2.shootMoment ∧
            m - si.2.shootMoment ≤ COLLIDE_THRESHOLD then
          [SRecord.slideHeadTap ni.1 si.1 (si.2.shootMoment - m)]
        else []) ++
        ((collideEntries si.2).filterMap fun e =>
          if e.1 = ni.2.pad ∧ e.2.2.1 ≤ m ∧ m ≤ e.2.2.2 then
            some (SRecord.tapOnSlide ni.1 si.1 (e.2.1 - m))
          else none) ++
        (if ni.2.pad = padOfIdx si.2.endp ∧
            si.2.criticalMoment + COLLIDE_THRESHOLD < m ∧
            m ≤ si.2.endMoment + COLLIDE_EXTRA_DELTA then
          [SRecord.tapOnSlide ni.1 si.1 (si.2.criticalMoment - m)]
        else [])

/-- The records the wifi loop emits for one `(wifi, note)` pair
(judge.py lines 128-144). -/
def wifiNoteRecords (wi : ℕ × MWifi P) (ni : ℕ × StNote) : List SRecord :=
  match ni.2.headIdx with
  | none => []
  | some (m, idx) =>
      if m < wi.2.shootMoment ∨ wi.2.endMoment + COLLIDE_THRESHOLD < m then []
      else
        (if wi.2.start = idx ∧ TAP_ON_SLIDE_THRESHOLD ≤ m - wi.2.shootMoment ∧
            m - wi.2.shootMoment ≤ COLLIDE_THRESHOLD then
          [SRecord.slideHeadTap ni.1 wi.1 (wi.2.shootMoment - m)]
        else []) ++
        (if idx % 8 = wi.2.endp % 8 ∨ idx % 8 = (wi.2.endp + 1) % 8 ∨
            idx % 8 = (wi.2.endp - 1) % 8 then
          if max (wi.2.criticalMoment - COLLIDE_EXTRA_DELTA)
                (wi.2.shootMoment + TAP_ON_SLIDE_THRESHOLD) ≤ m ∧
              m ≤ max (wi.2.criticalMoment + COLLIDE_THRESHOLD)
                (wi.2.endMoment + COLLIDE_EXTRA_DELTA) then
            [SRecord.tapOnSlide ni.1 wi.1 (wi.2.criticalMoment - m)]
          else []
        else [])

/-- One overlap comparison (judge.py lines 147-168); `i`/`j` are the
positions inside `non_slides`, used for the `i < j` symmetry breaking and
the `note is note2` identity test. -/
def overlapPairRecords (i : ℕ) (n1 : ℕ × StNote) (j : ℕ) (n2 : ℕ × StNote) :
    List SRecord :=
  if i = j then []
  else
    match n1.2, n2.2 with
    | .tap m1 _, .tap m2 _ =>
        if i < j ∧ n1.2.pad = n2.2.pad ∧ |m1 - m2| ≤ OVERLAY_THRESHOLD then
          [SRecord.overlap n1.1 n2.1] else []
    | .tap m1 _, .touch m2 _ =>
        if i < j ∧ n1.2.pad = n2.2.pad ∧ |m1 - m2| ≤ OVERLAY_THRESHOLD then
          [SRecord.overlap n1.1 n2.1] else []
    | .touch m1 _, .tap m2 _ =>
        if i < j ∧ n1.2.pad = n2.2.pad ∧ |m1 - m2| ≤ OVERLAY_THRESHOLD then
          [SRecord.overlap n1.1 n2.1] else []
    | .touch m1 _, .touch m2 _ =>
        if i < j ∧ n1.2.pad = n2.2.pad ∧ |m1 - m2| ≤ OVERLAY_THRESHOLD then
          [SRecord.overlap n1.1 n2.1] else []
    | .tap m1 _, .hold _ _ _ =>
        if n1.2.pad = n2.2.pad ∧ n2.2.moment - OVERLAY_THRESHOLD ≤ m1 ∧
            m1 ≤ n2.2.endMoment + OVERLAY_THRESHOLD then
          [SRecord.overlap n1.1 n2.1] else []
    | .tap m1 _, .touchHold _ _ _ =>
        if n1.2.pad = n2.2.pad ∧ n2.2.moment - OVERLAY_THRESHOLD ≤ m1 ∧
            m1 ≤ n2.2.endMoment + OVERLAY_THRESHOLD then
          [SRecord.overlap n1.1 n2.1] else []
    | .touch m1 _, .hold _ _ _ =>
        if n1.2.pad = n2.2.pad ∧ n2.2.moment - OVERLAY_THRESHOLD ≤ m1 ∧
            m1 ≤ n2.2.endMoment + OVERLAY_THRESHOLD then
          [SRecord.overlap n1.1 n2.1] else []
    | .touch m1 _, .touchHold _ _ _ =>
        if n1.2.pad = n2.2.pad ∧ n2.2.moment - OVERLAY_THRESHOLD ≤ m1 ∧
            m1 ≤ n2.2.endMoment + OVERLAY_THRESHOLD then
          [SRecord.overlap n1.1 n2.1] else []
    | .hold _ _ _, .hold _ _ _ =>
        if i < j ∧ n1.2.pad = n2.2.pad ∧
            (n2.2.moment - OVERLAY_THRESHOLD ≤ n1.2.moment ∧
              n1.2.moment ≤ n2.2.endMoment + OVERLAY_THRESHOLD ∨
             n1.2.moment - OVERLAY_THRESHOLD ≤ n2.2.moment ∧
              n2.2.moment ≤ n1.2.endMoment + OVERLAY_THRESHOLD) then
          [SRecord.overlap n1.1 n2.1] else []
    | .hold _ _ _, .touchHold _ _ _ =>
        if i < j ∧ n1.2.pad = n2.2.pad ∧
            (n2.2.moment - OVERLAY_THRESHOLD ≤ n1.2.moment ∧
              n1.2.moment ≤ n2.2.endMoment + OVERLAY_THRESHOLD ∨
             n1.2.moment - OVERLAY_THRESHOLD ≤ n2.2.moment ∧
              n2.2.moment ≤ n1.2.endMoment + OVERLAY_THRESHOLD) then
          [SRecord.overlap n1.1 n2.1] else []
    | .touchHold _ _ _, .hold _ _ _ =>
        if i < j ∧ n1.2.pad = n2.2.pad ∧
            (n2.2.moment - OVERLAY_THRESHOLD ≤ n1.2.moment ∧
              n1.2.moment ≤ n2.2.endMoment + OVERLAY_THRESHOLD ∨
             n1.2.moment - OVERLAY_THRESHOLD ≤ n2.2.moment ∧
              n2.2.moment ≤ n1.2.endMoment + OVERLAY_THRESHOLD) then
          [SRecord.overlap n1.1 n2.1] else []
    | .touchHold _ _ _, .touchHold _ _ _ =>
        if i < j ∧ n1.2.pad = n2.2.pad ∧
            (n2.2.moment - OVERLAY_THRESHOLD ≤ n1.2.moment ∧
              n1.2.moment ≤ n2.2.endMoment + OVERLAY_THRESHOLD ∨
             n1.2.moment - OVERLAY_THRESHOLD ≤ n2.2.moment ∧
              n2.2.moment ≤ n1.2.endMoment + OVERLAY_THRESHOLD) then
          [SRecord.overlap n1.1 n2.1] else []
    | _, _ => []

def overlapRecords (nonSlides : List (ℕ × StNote)) : List SRecord :=
  nonSlides.enum.flatMap fun x =>
    nonSlides.enum.flatMap fun y =>
      overlapPairRecords x.1 x.2 y.1 y.2

/-- `StaticMuriChecker.check` over the pre-split note groups, in the
code's emission order: slide loop, then wifi loop, then overlap loop. -/
def staticCheck (slides : List (ℕ × SChain P)) (wifis : List (ℕ × MWifi P))
    (nonSlides : List (ℕ × StNote)) : List SRecord :=
  (slides.flatMap fun si => nonSlides.flatMap fun ni =>
    slideNoteRecords si ni) ++
  (wifis.flatMap fun wi => nonSlides.flatMap fun ni =>
    wifiNoteRecords wi ni) ++
  overlapRecords nonSlides

lemma overlapPairRecords_overlap (i : ℕ) (n1 : ℕ × StNote) (j : ℕ)
    (n2 : ℕ × StNote) (r : SRecord) (hr : r ∈ overlapPairRecords i n1 j n2) :
    ∃ x y, r = .overlap x y := by
  unfold overlapPairRecords at hr
  split at hr
  · simp at hr
  · split at hr <;> try split at hr
    all_goals simp_all

lemma slideHeadTap_not_mem_overlapRecords (ns : List (ℕ × StNote)) (a b : ℕ)
    (d : ℚ) : SRecord.slideHeadTap a b d ∉ overlapRecords ns := by
  intro h
  rw [overlapRecords, List.mem_flatMap] at h
  obtain ⟨x, -, h⟩ := h
  rw [List.mem_flatMap] at h
  obtain ⟨y, -, h⟩ := h
  obtain ⟨u, v, huv⟩ := overlapPairRecords_overlap x.1 x.2 y.1 y.2 _ h
  cases huv

lemma slideHeadTap_mem_slideNoteRecords (si : ℕ × SChain P)
    (ni : ℕ × StNote) (a b : ℕ) (d : ℚ) :
    SRecord.slideHeadTap a b d ∈ slideNoteRecords si ni ↔
      ∃ m idx, ni.2.headIdx = some (m, idx) ∧ a = ni.1 ∧ b = si.1 ∧
        ¬(m < si.2.shootMoment ∨ si.2.endMoment + COLLIDE_THRESHOLD < m) ∧
        idx = si.2.start ∧ TAP_ON_SLIDE_THRESHOLD ≤ m - si.2.shootMoment ∧
        m - si.2.shootMoment ≤ COLLIDE_THRESHOLD ∧
        d = si.2.shootMoment - m := by
  unfold slideNoteRecords
  cases hhead : ni.2.headIdx with
  | none => simp
  | some mi =>
    obtain ⟨m, idx⟩ := mi
    dsimp only
    constructor
    · intro h
      split at h
      · simp at h
      · rename_i hpre
        simp only [List.mem_append] at h
        rcases h with (h | h) | h
        · split at h
          · rename_i hcond
            simp only [List.mem_singleton, SRecord.slideHeadTap.injEq] at h
            exact ⟨m, idx, rfl, h.1, h.2.1, hpre, hcond.1,
              hcond.2.1, hcond.2.2, h.2.2⟩
          · simp at h
        · rw [List.mem_filterMap] at h
          obtain ⟨e, -, he⟩ := h
          split at he
          · cases he
          · cases he
        · split at h
          · simp at h
          · simp at h
    · rintro ⟨m', idx', heq, rfl, rfl, hpre, hidx, h1, h2, rfl⟩
      obtain ⟨rfl, rfl⟩ : m' = m ∧ idx' = idx := by
        constructor <;> [injection heq with h'; injection heq with h'] <;>
          simp_all
      rw [if_neg hpre]
      refine List.mem_append.mpr (Or.inl (List.mem_append.mpr (Or.inl ?_)))
      rw [if_pos ⟨hidx, h1, h2⟩]
      simp

lemma slideHeadTap_mem_wifiNoteRecords (wi : ℕ × MWifi P)
    (ni : ℕ × StNote) (a b : ℕ) (d : ℚ) :
    SRecord.slideHeadTap a b d ∈ wifiNoteRecords wi ni ↔
      ∃ m idx, ni.2.headIdx = some (m, idx) ∧ a = ni.1 ∧ b = wi.1 ∧
        ¬(m < wi.2.shootMoment ∨ wi.2.endMoment + COLLIDE_THRESHOLD < m) ∧
        wi.2.start = idx ∧ TAP_ON_SLIDE_THRESHOLD ≤ m - wi.2.shootMoment ∧
        m - wi.2.shootMoment ≤ COLLIDE_THRESHOLD ∧
        d = wi.2.shootMoment - m := by
  unfold wifiNoteRecords
  cases hhead : ni.2.headIdx with
  | none => simp
  | some mi =>
    obtain ⟨m, idx⟩ := mi
    dsimp only
    constructor
    · intro h
      split at h
      · simp at h
      · rename_i hpre
        simp only [List.mem_append] at h
        rcases h with h | h
        · split at h
          · rename_i hcond
            simp only [List.mem_singleton, SRecord.slideHeadTap.injEq] at h
            exact ⟨m, idx, rfl, h.1, h.2.1, hpre, hcond.1,
              hcond.2.1, hcond.2.2, h.2.2⟩
          · simp at h
        · split at h
          · split at h
            · simp at h
            · simp at h
          · simp at h
    · rintro ⟨m', idx', heq, rfl, rfl, hpre, hidx, h1, h2, rfl⟩
      obtain ⟨rfl, rfl⟩ : m' = m ∧ idx' = idx := by
        constructor <;> [injection heq with h'; injection heq with h'] <;>
          simp_all
      rw [if_neg hpre]
      refine List.mem_append.mpr (Or.inl ?_)
      rw [if_pos ⟨hidx, h1, h2⟩]
      simp

lemma tapOnSlideThreshold_pos : (0:ℚ) < TAP_ON_SLIDE_THRESHOLD := by
  norm_num [TAP_ON_SLIDE_THRESHOLD, JUDGE_TPF]

/-- **C7.** The static checker emits a SlideHeadTap record for a slide `S`
(standard chain or wifi) and a Tap or Hold note `N` if and only if `N`'s
button equals `S`'s start button and
`TAP_ON_SLIDE_THRESHOLD ≤ N.moment − S.shoot_moment ≤ COLLIDE_THRESHOLD`,
and the record carries the signed delta `S.shoot_moment − N.moment`
(`StaticMuriChecker.check`, judge.py; the loop's pre-filter
`shoot_moment ≤ N.moment ≤ end_moment + COLLIDE_THRESHOLD` is subsumed by
the window because `TAP_ON_SLIDE_THRESHOLD > 0` and
`shoot_moment ≤ end_moment`). -/
theorem C7_slideHeadTap_iff (slides : List (ℕ × SChain P))
    (wifis : List (ℕ × MWifi P)) (nonSlides : List (ℕ × StNote))
    (a b : ℕ) (d : ℚ)
    (hs : ∀ s ∈ slides, (s : ℕ × SChain P).2.shootMoment ≤ s.2.endMoment)
    (hw : ∀ w ∈ wifis, (w : ℕ × MWifi P).2.shootMoment ≤ w.2.endMoment) :
    SRecord.slideHeadTap a b d ∈ staticCheck slides wifis nonSlides ↔
      (∃ s ∈ slides, ∃ n ∈ nonSlides, ∃ m idx,
        (n : ℕ × StNote).2.headIdx = some (m, idx) ∧ a = n.1 ∧
        b = (s : ℕ × SChain P).1 ∧ idx = s.2.start ∧
        TAP_ON_SLIDE_THRESHOLD ≤ m - s.2.shootMoment ∧
        m - s.2.shootMoment ≤ COLLIDE_THRESHOLD ∧
        d = s.2.shootMoment - m) ∨
      (∃ w ∈ wifis, ∃ n ∈ nonSlides, ∃ m idx,
        (n : ℕ × StNote).2.headIdx = some (m, idx) ∧ a = n.1 ∧
        b = (w : ℕ × MWifi P).1 ∧ w.2.start = idx ∧
        TAP_ON_SLIDE_THRESHOLD ≤ m - w.2.shootMoment ∧
        m - w.2.shootMoment ≤ COLLIDE_THRESHOLD ∧
        d = w.2.shootMoment - m) := by
  have hpre : ∀ (shoot endm m : ℚ), shoot ≤ endm →
      TAP_ON_SLIDE_THRESHOLD ≤ m - shoot → m - shoot ≤ COLLIDE_THRESHOLD →
      ¬(m < shoot ∨ endm + COLLIDE_THRESHOLD < m) := by
    intro shoot endm m hse h1 h2
    have := tapOnSlideThreshold_pos
    push_neg
    constructor <;> linarith
  rw [staticCheck]
  simp only [List.mem_append]
  constructor
  · rintro ((h | h) | h)
    · left
      rw [List.mem_flatMap] at h
      obtain ⟨s, hsmem, h⟩ := h
      rw [List.mem_flatMap] at h
      obtain ⟨n, hnmem, h⟩ := h
      rw [slideHeadTap_mem_slideNoteRecords] at h
      obtain ⟨m, idx, h0, h1', h2', -, h4, h5, h6, h7⟩ := h
      exact ⟨s, hsmem, n, hnmem, m, idx, h0, h1', h2', h4, h5, h6, h7⟩
    · right
      rw [List.mem_flatMap] at h
      obtain ⟨w, hwmem, h⟩ := h
      rw [List.mem_flatMap] at h
      obtain ⟨n, hnmem, h⟩ := h
      rw [slideHeadTap_mem_wifiNoteRecords] at h
      obtain ⟨m, idx, h0, h1', h2', -, h4, h5, h6, h7⟩ := h
      exact ⟨w, hwmem, n, hnmem, m, idx, h0, h1', h2', h4, h5, h6, h7⟩
    · exact absurd h (slideHeadTap_not_mem_overlapRecords nonSlides a b d)
  · rintro (⟨s, hsmem, n, hnmem, m, idx, h0, h1', h2', h4, h5, h6, h7⟩ |
            ⟨w, hwmem, n, hnmem, m, idx, h0, h1', h2', h4, h5, h6, h7⟩)
    · refine Or.inl (Or.inl ?_)
      rw [List.mem_flatMap]
      refine ⟨s, hsmem, ?_⟩
      rw [List.mem_flatMap]
      refine ⟨n, hnmem, ?_⟩
      rw [slideHeadTap_mem_slideNoteRecords]
      exact ⟨m, idx, h0, h1', h2',
        hpre _ _ _ (hs s hsmem) h5 h6, h4, h5, h6, h7⟩
    · refine Or.inl (Or.inr ?_)
      rw [List.mem_flatMap]
      refine ⟨w, hwmem, ?_⟩
      rw [List.mem_flatMap]
      refine ⟨n, hnmem, ?_⟩
      rw [slideHeadTap_mem_wifiNoteRecords]
      exact ⟨m, idx, h0, h1', h2',
        hpre _ _ _ (hw w hwmem) h5 h6, h4, h5, h6, h7⟩

/-- Witness for C7 at a concrete input: the straight chain `1-2` (moment
15, wait 3, so `shoot_moment = 18`, `end_moment = 30`) and a Tap on button
1 at moment 20; the checker emits `SlideHeadTap` with delta `18 − 20 = −2`. -/
theorem C7_slideHeadTap_iff_witness :
    let info : SlideInfo Unit :=
      mkSlideInfo "1-2" 1 2 .straight () () [[⟨1⟩], [⟨2⟩]] [] (1/2)
    let c := mkSChain 15 (info, 12) [] 3
    SRecord.slideHeadTap 0 1 (-2) ∈
      staticCheck [(1, c)] ([] : List (ℕ × MWifi Unit)) [(0, .tap 20 1)] := by
  intro info c
  have hshoot : c.shootMoment = 18 := by norm_num [c, mkSChain]
  have hend : c.endMoment = 30 := by
    show (List.scanl (· + ·) (15 + 3) [(12:ℚ)]).getLastD (15 + 3) = 30
    norm_num [List.scanl]
  rw [C7_slideHeadTap_iff [(1, c)] [] [(0, .tap 20 1)] 0 1 (-2)
      (by rintro s hs
          obtain rfl : s = (1, c) := by simpa using hs
          rw [hshoot, hend]; norm_num)
      (by rintro w hw; simp at hw)]
  refine Or.inl ⟨(1, c), by simp, (0, .tap 20 1), by simp, 20, 1,
    rfl, rfl, rfl, ?_, ?_, ?_, ?_⟩
  · rfl
  · rw [hshoot]; norm_num [TAP_ON_SLIDE_THRESHOLD, JUDGE_TPF]
  · rw [hshoot]; norm_num [COLLIDE_THRESHOLD, JUDGE_TPF]
  · rw [hshoot]; norm_num

/-! ## Smallest enclosing circle (`util.py`)

`util.py` works with Python complex numbers and floats; the embedding uses
`ℂ` with real arithmetic.  Python's `float("nan")` radius for an empty
boundary makes every comparison `abs(p - center) <= radius + 0.001` false,
which is modelled by returning `none` there (the comparison branch treats
`none` as a failed test, exactly as NaN does). -/

/-- Real inner product on `ℂ` viewed as `ℝ²`. -/
def rinner (u v : ℂ) : ℝ := u.re * v.re + u.im * v.im

lemma sq_abs_expand (z : ℂ) : Complex.abs z ^ 2 = z.re ^ 2 + z.im ^ 2 := by
  rw [Complex.sq_abs, Complex.normSq_apply]
  ring

/-- `util._circle3`: circle through/around three points — the diameter
circle on the side opposite a non-acute angle, otherwise the circumcircle
in barycentric form. -/
noncomputable def circle3 (pa pb pc : ℂ) : ℂ × ℝ :=
  let a2 := Complex.abs (pb - pc) ^ 2
  let b2 := Complex.abs (pa - pc) ^ 2
  let c2 := Complex.abs (pa - pb) ^ 2
  let wa := a2 * (b2 + c2 - a2)
  let wb := b2 * (a2 + c2 - b2)
  let wc := c2 * (a2 + b2 - c2)
  if wa ≤ 0 then ((pb + pc) / 2, Complex.abs (pb - pc) / 2)
  else if wb ≤ 0 then ((pa + pc) / 2, Complex.abs (pa - pc) / 2)
  else if wc ≤ 0 then ((pa + pb) / 2, Complex.abs (pa - pb) / 2)
  else
    let center := ((wa : ℂ) * pa + (wb : ℂ) * pb + (wc : ℂ) * pc) /
      ((wa + wb + wc : ℝ) : ℂ)
    (center, Complex.abs (center - pa))

/-- `util._circle_trivial`: `none` stands for the `(0, nan)` returned on an
empty boundary (`> 3` points raise in Python and are unreachable). -/
noncomputable def circleTrivial : List ℂ → Option (ℂ × ℝ)
  | [] => none
  | [a] => some (a, 0)
  | [a, b] => some ((a + b) / 2, Complex.abs (a - b) / 2)
  | [a, b, c] => some (circle3 a b c)
  | _ => none

/-- `util._welzl`.  The boundary-length bound makes the recursion
well-founded; Python maintains it implicitly (`len(boundary) == 3` stops
before a fourth point can be added). -/
noncomputable def welzl :
    (points boundary : List ℂ) → boundary.length ≤ 3 → Option (ℂ × ℝ)
  | [], boundary, _ => circleTrivial boundary
  | p :: rest, boundary, h =>
    if hb : boundary.length = 3 then circleTrivial boundary
    else
      match welzl rest boundary h with
      | some (c, r) =>
          if Complex.abs (p - c) ≤ r + 1/1000 then some (c, r)
          else welzl (p :: rest) (boundary ++ [p]) (by simp; omega)
      | none => welzl (p :: rest) (boundary ++ [p]) (by simp; omega)
termination_by points boundary _ => (3 - boundary.length, points.length)
decreasing_by
  all_goals
    first
      | (apply Prod.Lex.right; simp)
      | (apply Prod.Lex.left; simp; omega)

/-- `util.get_covering_circle` applied to one concrete ordering of the
point list; the random shuffle is modelled by quantifying theorems over
all permutations of the input. -/
noncomputable def getCoveringCircle (l : List ℂ) : Option (ℂ × ℝ) :=
  welzl l [] (by simp)

/-! ### Unfolding lemmas for `welzl` -/

lemma welzl_nil (boundary : List ℂ) (h : boundary.length ≤ 3) :
    welzl [] boundary h = circleTrivial boundary := by
  rw [welzl]

lemma welzl_cons_eq (p : ℂ) (rest boundary : List ℂ) (h : boundary.length ≤ 3)
    (hb : ¬ boundary.length = 3) :
    welzl (p :: rest) boundary h =
      (match welzl rest boundary h with
       | some (c, r) =>
           if Complex.abs (p - c) ≤ r + 1/1000 then some (c, r)
           else welzl (p :: rest) (boundary ++ [p]) (by simp; omega)
       | none => welzl (p :: rest) (boundary ++ [p]) (by simp; omega)) := by
  rw [welzl]
  rw [dif_neg hb]

lemma welzl_step_accept {p : ℂ} {rest boundary : List ℂ} {h : boundary.length ≤ 3}
    {c : ℂ} {r : ℝ} (hb : ¬ boundary.length = 3)
    (hD : welzl rest boundary h = some (c, r))
    (hacc : Complex.abs (p - c) ≤ r + 1/1000) :
    welzl (p :: rest) boundary h = some (c, r) := by
  rw [welzl_cons_eq p rest boundary h hb, hD]
  dsimp only
  rw [if_pos hacc]

lemma welzl_step_reject {p : ℂ} {rest boundary : List ℂ} {h : boundary.length ≤ 3}
    {c : ℂ} {r : ℝ} (hb : ¬ boundary.length = 3)
    (hD : welzl rest boundary h = some (c, r))
    (hrej : ¬ Complex.abs (p - c) ≤ r + 1/1000)
    (h' : (boundary ++ [p]).length ≤ 3) :
    welzl (p :: rest) boundary h = welzl (p :: rest) (boundary ++ [p]) h' := by
  rw [welzl_cons_eq p rest boundary h hb, hD]
  dsimp only
  rw [if_neg hrej]

lemma welzl_step_none {p : ℂ} {rest boundary : List ℂ} {h : boundary.length ≤ 3}
    (hb : ¬ boundary.length = 3)
    (hD : welzl rest boundary h = none)
    (h' : (boundary ++ [p]).length ≤ 3) :
    welzl (p :: rest) boundary h = welzl (p :: rest) (boundary ++ [p]) h' := by
  rw [welzl_cons_eq p rest boundary h hb, hD]

lemma welzl_full (p : ℂ) (rest boundary : List ℂ) (h : boundary.length ≤ 3)
    (hb : boundary.length = 3) :
    welzl (p :: rest) boundary h = circleTrivial boundary := by
  rw [welzl]
  rw [dif_pos hb]

/-! ### Concrete complex points -/

def cpx (x y : ℝ) : ℂ := ⟨x, y⟩

@[simp] lemma cpx_re (x y : ℝ) : (cpx x y).re = x := rfl

@[simp] lemma cpx_im (x y : ℝ) : (cpx x y).im = y := rfl

@[simp] lemma cpx_sub (x y x' y' : ℝ) :
    cpx x y - cpx x' y' = cpx (x - x') (y - y') := by
  apply Complex.ext <;> simp [cpx, Complex.sub_re, Complex.sub_im]

@[simp] lemma cpx_add (x y x' y' : ℝ) :
    cpx x y + cpx x' y' = cpx (x + x') (y + y') := by
  apply Complex.ext <;> simp [cpx, Complex.add_re, Complex.add_im]

lemma cpx_half (x y : ℝ) : cpx x y / 2 = cpx (x / 2) (y / 2) := by
  apply Complex.ext <;>
    simp [cpx, Complex.div_re, Complex.div_im, Complex.normSq_apply]

/-! ### Square-root comparisons from rational squares -/

lemma abs_accept_of_sq_le (z : ℂ) (r : ℝ) (hr : 0 ≤ r)
    (h : Complex.abs z ^ 2 ≤ r ^ 2) :
    Complex.abs z ≤ r + 1/1000 := by
  have h1 : Complex.abs z ≤ r := le_of_pow_le_pow_left₀ two_ne_zero hr h
  linarith

lemma abs_reject_of_sq (z : ℂ) (r q : ℝ) (hq : 0 ≤ q)
    (h1 : r ^ 2 ≤ q ^ 2) (h2 : (q + 1/1000) ^ 2 < Complex.abs z ^ 2) :
    ¬ Complex.abs z ≤ r + 1/1000 := by
  have hrq : r ≤ q := by
    rcases le_or_lt r 0 with h0 | h0
    · linarith
    · exact le_of_pow_le_pow_left₀ two_ne_zero hq h1
  have h3 : q + 1/1000 < Complex.abs z :=
    lt_of_pow_lt_pow_left₀ 2 (Complex.abs.nonneg z) h2
  intro hcon
  linarith

lemma sq_half_abs (z : ℂ) : (Complex.abs z / 2) ^ 2 = (z.re ^ 2 + z.im ^ 2) / 4 := by
  rw [div_pow, sq_abs_expand]
  ring

/-! ### The three weights and the circumcenter of `circle3` -/

noncomputable def w3a (pa pb pc : ℂ) : ℝ :=
  Complex.abs (pb - pc) ^ 2 *
    (Complex.abs (pa - pc) ^ 2 + Complex.abs (pa - pb) ^ 2 - Complex.abs (pb - pc) ^ 2)

noncomputable def w3b (pa pb pc : ℂ) : ℝ :=
  Complex.abs (pa - pc) ^ 2 *
    (Complex.abs (pb - pc) ^ 2 + Complex.abs (pa - pb) ^ 2 - Complex.abs (pa - pc) ^ 2)

noncomputable def w3c (pa pb pc : ℂ) : ℝ :=
  Complex.abs (pa - pb) ^ 2 *
    (Complex.abs (pb - pc) ^ 2 + Complex.abs (pa - pc) ^ 2 - Complex.abs (pa - pb) ^ 2)

noncomputable def circCenter (pa pb pc : ℂ) : ℂ :=
  (((w3a pa pb pc : ℝ) : ℂ) * pa + ((w3b pa pb pc : ℝ) : ℂ) * pb +
      ((w3c pa pb pc : ℝ) : ℂ) * pc) /
    ((w3a pa pb pc + w3b pa pb pc + w3c pa pb pc : ℝ) : ℂ)

lemma circle3_eq (pa pb pc : ℂ) :
    circle3 pa pb pc =
      if w3a pa pb pc ≤ 0 then ((pb + pc) / 2, Complex.abs (pb - pc) / 2)
      else if w3b pa pb pc ≤ 0 then ((pa + pc) / 2, Complex.abs (pa - pc) / 2)
      else if w3c pa pb pc ≤ 0 then ((pa + pb) / 2, Complex.abs (pa - pb) / 2)
      else (circCenter pa pb pc, Complex.abs (circCenter pa pb pc - pa)) := rfl

lemma w3_sum_pos {pa pb pc : ℂ} (hwa : 0 < w3a pa pb pc) (hwb : 0 < w3b pa pb pc)
    (hwc : 0 < w3c pa pb pc) :
    0 < w3a pa pb pc + w3b pa pb pc + w3c pa pb pc := by linarith

/-- Huygens/Leibniz decomposition of a weighted sum of squared distances
about the weighted barycenter, in scaled (division-free) form; free in the
weights. -/
lemma weighted_sq_identity (wa wb wc : ℝ) (pa pb pc q : ℂ) :
    wa * Complex.abs (((wa + wb + wc : ℝ) : ℂ) * (pa - q)) ^ 2 +
      wb * Complex.abs (((wa + wb + wc : ℝ) : ℂ) * (pb - q)) ^ 2 +
      wc * Complex.abs (((wa + wb + wc : ℝ) : ℂ) * (pc - q)) ^ 2 =
    wa * Complex.abs (((wa + wb + wc : ℝ) : ℂ) * pa -
        ((wa : ℝ) : ℂ) * pa - ((wb : ℝ) : ℂ) * pb - ((wc : ℝ) : ℂ) * pc) ^ 2 +
      wb * Complex.abs (((wa + wb + wc : ℝ) : ℂ) * pb -
        ((wa : ℝ) : ℂ) * pa - ((wb : ℝ) : ℂ) * pb - ((wc : ℝ) : ℂ) * pc) ^ 2 +
      wc * Complex.abs (((wa + wb + wc : ℝ) : ℂ) * pc -
        ((wa : ℝ) : ℂ) * pa - ((wb : ℝ) : ℂ) * pb - ((wc : ℝ) : ℂ) * pc) ^ 2 +
      (wa + wb + wc) *
        Complex.abs (((wa : ℝ) : ℂ) * pa + ((wb : ℝ) : ℂ) * pb + ((wc : ℝ) : ℂ) * pc -
          ((wa + wb + wc : ℝ) : ℂ) * q) ^ 2 := by
  simp only [sq_abs_expand, Complex.sub_re, Complex.sub_im, Complex.add_re, Complex.add_im,
    Complex.mul_re, Complex.mul_im, Complex.ofReal_re, Complex.ofReal_im]
  ring

/-- The circumcenter weights make `pb` equidistant with `pa` from the
weighted barycenter (scaled form; holds identically). -/
lemma equidist_scaled_b (pa pb pc : ℂ) :
    Complex.abs
        (((w3a pa pb pc + w3b pa pb pc + w3c pa pb pc : ℝ) : ℂ) * pb -
          ((w3a pa pb pc : ℝ) : ℂ) * pa - ((w3b pa pb pc : ℝ) : ℂ) * pb -
          ((w3c pa pb pc : ℝ) : ℂ) * pc) ^ 2 =
      Complex.abs
        (((w3a pa pb pc + w3b pa pb pc + w3c pa pb pc : ℝ) : ℂ) * pa -
          ((w3a pa pb pc : ℝ) : ℂ) * pa - ((w3b pa pb pc : ℝ) : ℂ) * pb -
          ((w3c pa pb pc : ℝ) : ℂ) * pc) ^ 2 := by
  simp only [w3a, w3b, w3c, sq_abs_expand, Complex.sub_re, Complex.sub_im, Complex.add_re,
    Complex.add_im, Complex.mul_re, Complex.mul_im, Complex.ofReal_re, Complex.ofReal_im]
  ring

/-- Same for `pc`. -/
lemma equidist_scaled_c (pa pb pc : ℂ) :
    Complex.abs
        (((w3a pa pb pc + w3b pa pb pc + w3c pa pb pc : ℝ) : ℂ) * pc -
          ((w3a pa pb pc : ℝ) : ℂ) * pa - ((w3b pa pb pc : ℝ) : ℂ) * pb -
          ((w3c pa pb pc : ℝ) : ℂ) * pc) ^ 2 =
      Complex.abs
        (((w3a pa pb pc + w3b pa pb pc + w3c pa pb pc : ℝ) : ℂ) * pa -
          ((w3a pa pb pc : ℝ) : ℂ) * pa - ((w3b pa pb pc : ℝ) : ℂ) * pb -
          ((w3c pa pb pc : ℝ) : ℂ) * pc) ^ 2 := by
  simp only [w3a, w3b, w3c, sq_abs_expand, Complex.sub_re, Complex.sub_im, Complex.add_re,
    Complex.add_im, Complex.mul_re, Complex.mul_im, Complex.ofReal_re, Complex.ofReal_im]
  ring

/-- The circumcenter's distance to `pa`, in scaled form. -/
lemma circCenter_dist_pa (pa pb pc : ℂ)
    (hW : 0 < w3a pa pb pc + w3b pa pb pc + w3c pa pb pc) :
    Complex.abs (circCenter pa pb pc - pa) =
      Complex.abs
          (((w3a pa pb pc + w3b pa pb pc + w3c pa pb pc : ℝ) : ℂ) * pa -
            ((w3a pa pb pc : ℝ) : ℂ) * pa - ((w3b pa pb pc : ℝ) : ℂ) * pb -
            ((w3c pa pb pc : ℝ) : ℂ) * pc) /
        (w3a pa pb pc + w3b pa pb pc + w3c pa pb pc) := by
  have hW' : ((w3a pa pb pc + w3b pa pb pc + w3c pa pb pc : ℝ) : ℂ) ≠ 0 := by
    exact_mod_cast Complex.ofReal_ne_zero.mpr (ne_of_gt hW)
  have hstep : circCenter pa pb pc - pa =
      -((((w3a pa pb pc + w3b pa pb pc + w3c pa pb pc : ℝ) : ℂ) * pa -
          ((w3a pa pb pc : ℝ) : ℂ) * pa - ((w3b pa pb pc : ℝ) : ℂ) * pb -
          ((w3c pa pb pc : ℝ) : ℂ) * pc)) /
        ((w3a pa pb pc + w3b pa pb pc + w3c pa pb pc : ℝ) : ℂ) := by
    unfold circCenter
    rw [eq_div_iff hW', sub_mul, div_mul_cancel₀ _ hW']
    push_cast
    ring
  rw [hstep, map_div₀, map_neg_eq_map, Complex.abs_ofReal,
    abs_of_pos hW]

/-- Two covered points keep the diameter radius below the cover radius. -/
lemma circle2_min (a b d : ℂ) (s : ℝ) (ha : Complex.abs (a - d) ≤ s)
    (hb : Complex.abs (b - d) ≤ s) :
    Complex.abs (a - b) / 2 ≤ s := by
  have htri : Complex.abs (a - b) ≤ Complex.abs (a - d) + Complex.abs (d - b) :=
    Complex.abs.sub_le a d b
  have hdb : Complex.abs (d - b) = Complex.abs (b - d) := Complex.abs.map_sub d b
  rw [hdb] at htri
  linarith

/-- Abstract minimality of the weighted barycenter radius: positive weights
whose barycenter is equidistant (scaled) from the three points give a radius
below any covering radius. -/
lemma weighted_min (wa wb wc : ℝ) (pa pb pc O d : ℂ) (s : ℝ)
    (hwa : 0 < wa) (hwb : 0 < wb) (hwc : 0 < wc)
    (hOb : Complex.abs (((wa + wb + wc : ℝ) : ℂ) * pb -
        ((wa : ℝ) : ℂ) * pa - ((wb : ℝ) : ℂ) * pb - ((wc : ℝ) : ℂ) * pc) ^ 2 =
      Complex.abs (((wa + wb + wc : ℝ) : ℂ) * pa -
        ((wa : ℝ) : ℂ) * pa - ((wb : ℝ) : ℂ) * pb - ((wc : ℝ) : ℂ) * pc) ^ 2)
    (hOc : Complex.abs (((wa + wb + wc : ℝ) : ℂ) * pc -
        ((wa : ℝ) : ℂ) * pa - ((wb : ℝ) : ℂ) * pb - ((wc : ℝ) : ℂ) * pc) ^ 2 =
      Complex.abs (((wa + wb + wc : ℝ) : ℂ) * pa -
        ((wa : ℝ) : ℂ) * pa - ((wb : ℝ) : ℂ) * pb - ((wc : ℝ) : ℂ) * pc) ^ 2)
    (hdist : Complex.abs (O - pa) =
      Complex.abs (((wa + wb + wc : ℝ) : ℂ) * pa -
          ((wa : ℝ) : ℂ) * pa - ((wb : ℝ) : ℂ) * pb - ((wc : ℝ) : ℂ) * pc) /
        (wa + wb + wc))
    (ha : Complex.abs (pa - d) ≤ s) (hb : Complex.abs (pb - d) ≤ s)
    (hc : Complex.abs (pc - d) ≤ s) :
    Complex.abs (O - pa) ≤ s := by
  have hW : 0 < wa + wb + wc := by linarith
  have hs : 0 ≤ s := le_trans (Complex.abs.nonneg _) ha
  have hid := weighted_sq_identity wa wb wc pa pb pc d
  rw [hOb, hOc] at hid
  have habsW : ∀ z : ℂ, Complex.abs (((wa + wb + wc : ℝ) : ℂ) * z) =
      (wa + wb + wc) * Complex.abs z := by
    intro z
    rw [map_mul, Complex.abs_ofReal, abs_of_pos hW]
  have hcov : ∀ z : ℂ, Complex.abs (z - d) ≤ s →
      Complex.abs (((wa + wb + wc : ℝ) : ℂ) * (z - d)) ^ 2 ≤ (wa + wb + wc) ^ 2 * s ^ 2 := by
    intro z hz
    rw [habsW, mul_pow]
    exact mul_le_mul_of_nonneg_left (by nlinarith [Complex.abs.nonneg (z - d)]) (sq_nonneg _)
  have hca := hcov pa ha
  have hcb := hcov pb hb
  have hcc := hcov pc hc
  have hcross : 0 ≤ Complex.abs
      (((wa : ℝ) : ℂ) * pa + ((wb : ℝ) : ℂ) * pb + ((wc : ℝ) : ℂ) * pc -
        ((wa + wb + wc : ℝ) : ℂ) * d) ^ 2 := sq_nonneg _
  have hkey : Complex.abs (((wa + wb + wc : ℝ) : ℂ) * pa -
      ((wa : ℝ) : ℂ) * pa - ((wb : ℝ) : ℂ) * pb - ((wc : ℝ) : ℂ) * pc) ^ 2 ≤
      (wa + wb + wc) ^ 2 * s ^ 2 := by nlinarith
  rw [hdist, div_le_iff₀ hW]
  have hws : 0 ≤ s * (wa + wb + wc) := by positivity
  refine le_of_pow_le_pow_left₀ two_ne_zero hws ?_
  calc Complex.abs (((wa + wb + wc : ℝ) : ℂ) * pa -
        ((wa : ℝ) : ℂ) * pa - ((wb : ℝ) : ℂ) * pb - ((wc : ℝ) : ℂ) * pc) ^ 2
      ≤ (wa + wb + wc) ^ 2 * s ^ 2 := hkey
    _ = (s * (wa + wb + wc)) ^ 2 := by ring

/-- Minimality of the `circle3` radius among covering radii. -/
lemma circle3_min (pa pb pc d : ℂ) (s : ℝ)
    (ha : Complex.abs (pa - d) ≤ s) (hb : Complex.abs (pb - d) ≤ s)
    (hc : Complex.abs (pc - d) ≤ s) :
    (circle3 pa pb pc).2 ≤ s := by
  rw [circle3_eq]
  by_cases hwa : w3a pa pb pc ≤ 0
  · rw [if_pos hwa]
    exact circle2_min pb pc d s hb hc
  · rw [if_neg hwa]
    by_cases hwb : w3b pa pb pc ≤ 0
    · rw [if_pos hwb]
      exact circle2_min pa pc d s ha hc
    · rw [if_neg hwb]
      by_cases hwc : w3c pa pb pc ≤ 0
      · rw [if_pos hwc]
        exact circle2_min pa pb d s ha hb
      · rw [if_neg hwc]
        push_neg at hwa hwb hwc
        exact weighted_min (w3a pa pb pc) (w3b pa pb pc) (w3c pa pb pc) pa pb pc
          (circCenter pa pb pc) d s hwa hwb hwc
          (equidist_scaled_b pa pb pc) (equidist_scaled_c pa pb pc)
          (circCenter_dist_pa pa pb pc (w3_sum_pos hwa hwb hwc)) ha hb hc

/-- Minimality of the `circleTrivial` radius among covering radii. -/
lemma circleTrivial_min (bnd : List ℂ) (c : ℂ) (r : ℝ)
    (h : circleTrivial bnd = some (c, r)) (d : ℂ) (s : ℝ) (hs : 0 ≤ s)
    (hcov : ∀ q ∈ bnd, Complex.abs (q - d) ≤ s) : r ≤ s := by
  match bnd with
  | [] => simp [circleTrivial] at h
  | [a] =>
    simp only [circleTrivial, Option.some_inj, Prod.mk.injEq] at h
    rw [← h.2]
    exact hs
  | [a, b] =>
    simp only [circleTrivial, Option.some_inj, Prod.mk.injEq] at h
    rw [← h.2]
    exact circle2_min a b d s (hcov a (by simp)) (hcov b (by simp))
  | [a, b, cc] =>
    simp only [circleTrivial, Option.some_inj] at h
    have h2 : (circle3 a b cc).2 = r := by rw [h]
    rw [← h2]
    exact circle3_min a b cc d s (hcov a (by simp)) (hcov b (by simp)) (hcov cc (by simp))
  | a :: b :: cc :: dd :: tl => simp [circleTrivial] at h

/-- The radius returned by `welzl` never exceeds any covering radius of the
remaining points and the forced boundary. -/
lemma welzl_min (d : ℂ) (s : ℝ) (hs : 0 ≤ s) :
    ∀ (points boundary : List ℂ) (h : boundary.length ≤ 3) (c : ℂ) (r : ℝ),
      welzl points boundary h = some (c, r) →
      (∀ q ∈ points, Complex.abs (q - d) ≤ s) →
      (∀ q ∈ boundary, Complex.abs (q - d) ≤ s) → r ≤ s := by
  intro points boundary h
  induction points, boundary, h using welzl.induct with
  | case1 boundary h _ =>
    intro c r heq hp hbnd
    rw [welzl_nil] at heq
    exact circleTrivial_min boundary c r heq d s hs hbnd
  | case2 p rest boundary h hb _ =>
    intro c r heq hp hbnd
    rw [welzl_full p rest boundary h hb] at heq
    exact circleTrivial_min boundary c r heq d s hs hbnd
  | case3 p rest boundary h hb c0 r0 hD hacc _ ih =>
    intro c r heq hp hbnd
    rw [welzl_step_accept hb hD hacc] at heq
    simp only [Option.some.injEq, Prod.mk.injEq] at heq
    obtain ⟨rfl, rfl⟩ := heq
    exact ih c0 r0 hD (fun q hq => hp q (List.mem_cons_of_mem p hq)) hbnd
  | case4 p rest boundary h hb c0 r0 hD hrej _ ih1 ih2 =>
    intro c r heq hp hbnd
    rw [welzl_step_reject hb hD hrej (by simp; omega)] at heq
    refine ih2 c r heq hp ?_
    intro q hq
    rcases List.mem_append.mp hq with hq' | hq'
    · exact hbnd q hq'
    · rcases List.mem_singleton.mp hq' with rfl
      exact hp q (List.mem_cons_self q rest)
  | case5 p rest boundary h hb hD _ ih1 ih2 =>
    intro c r heq hp hbnd
    rw [welzl_step_none hb hD (by simp; omega)] at heq
    refine ih2 c r heq hp ?_
    intro q hq
    rcases List.mem_append.mp hq with hq' | hq'
    · exact hbnd q hq'
    · rcases List.mem_singleton.mp hq' with rfl
      exact hp q (List.mem_cons_self q rest)

/-- `welzl` returns a circle whenever it has a point or boundary to work on
(Python returns the NaN circle only for an entirely empty call). -/
lemma welzl_isSome :
    ∀ (points boundary : List ℂ) (h : boundary.length ≤ 3),
      points ≠ [] ∨ boundary ≠ [] → (welzl points boundary h).isSome := by
  intro points boundary h
  induction points, boundary, h using welzl.induct with
  | case1 boundary h _ =>
    intro hne
    rw [welzl_nil]
    rcases hne with h1 | h1
    · exact absurd rfl h1
    · match boundary, h with
      | [a], _ => simp [circleTrivial]
      | [a, b], _ => simp [circleTrivial]
      | [a, b, c], _ => simp [circleTrivial]
      | [], _ => exact absurd rfl h1
  | case2 p rest boundary h hb _ =>
    intro hne
    rw [welzl_full p rest boundary h hb]
    match boundary, hb with
    | [a, b, c], _ => simp [circleTrivial]
  | case3 p rest boundary h hb c0 r0 hD hacc _ ih =>
    intro hne
    rw [welzl_step_accept hb hD hacc]
    rfl
  | case4 p rest boundary h hb c0 r0 hD hrej _ ih1 ih2 =>
    intro hne
    rw [welzl_step_reject hb hD hrej (by simp; omega)]
    exact ih2 (Or.inr (by simp))
  | case5 p rest boundary h hb hD _ ih1 ih2 =>
    intro hne
    rw [welzl_step_none hb hD (by simp; omega)]
    exact ih2 (Or.inr (by simp))

/-- A single-point input yields that point with radius zero. -/
lemma getCoveringCircle_singleton (z : ℂ) : getCoveringCircle [z] = some (z, 0) := by
  unfold getCoveringCircle
  have h0 : welzl ([] : List ℂ) [] (by simp) = none := by
    rw [welzl_nil]
    rfl
  rw [welzl_step_none (by simp) h0 (by simp)]
  simp only [List.nil_append]
  have h1 : welzl ([] : List ℂ) [z] (by simp) = some (z, 0) := by
    rw [welzl_nil]
    rfl
  rw [welzl_step_accept (by simp) h1 (by simp)]


lemma cpx_eq_iff (x y x' y' : ℝ) : cpx x y = cpx x' y' ↔ x = x' ∧ y = y' := by
  constructor
  · intro h
    exact ⟨congrArg Complex.re h, congrArg Complex.im h⟩
  · rintro ⟨rfl, rfl⟩
    rfl

lemma cpx_mul (a b c d : ℝ) : cpx a b * cpx c d = cpx (a * c - b * d) (a * d + b * c) := by
  apply Complex.ext <;> simp [cpx, Complex.mul_re, Complex.mul_im]

lemma cpx_ofReal (x : ℝ) : ((x : ℝ) : ℂ) = cpx x 0 := rfl

/-- A candidate centre satisfying the cleared-denominator equation is the
circumcenter. -/
lemma circCenter_eq_of (pa pb pc c0 : ℂ)
    (hW : w3a pa pb pc + w3b pa pb pc + w3c pa pb pc ≠ 0)
    (h : c0 * ((w3a pa pb pc + w3b pa pb pc + w3c pa pb pc : ℝ) : ℂ) =
      ((w3a pa pb pc : ℝ) : ℂ) * pa + ((w3b pa pb pc : ℝ) : ℂ) * pb +
        ((w3c pa pb pc : ℝ) : ℂ) * pc) :
    circCenter pa pb pc = c0 := by
  unfold circCenter
  rw [← h, mul_div_assoc, div_self (Complex.ofReal_ne_zero.mpr hW), mul_one]

/-- First point of the C8 counterexample input. -/
noncomputable def cexA : ℂ := cpx (-104/100) (-26/100)

/-- Second point of the C8 counterexample input. -/
noncomputable def cexB : ℂ := cpx (19/100) (-81/100)

/-- Third point of the C8 counterexample input. -/
noncomputable def cexC : ℂ := cpx 1 0

/-- Fourth point of the C8 counterexample input. -/
noncomputable def cexY : ℂ := cpx (-48/100) (-67/100)

/-- Fifth point of the C8 counterexample input. -/
noncomputable def cexX : ℂ := cpx (19/100) (168/100)

/-- C8: counterexample.  On the input order
`[cexA, cexB, cexC, cexY, cexX]` (one possible shuffle of these five
points), `get_covering_circle` returns the diameter circle on
`cexA, cexC` — centre `(-0.02, -0.13)`, radius `≈ 1.0283` — yet the input
point `cexX = (0.19, 1.68)` lies at distance `≈ 1.8221` from that centre,
far beyond the returned radius plus the 0.001 tolerance.  The final
boundary reaches three points, `_circle3` takes an obtuse-angle branch
that drops one of them, and the previously rejected points are never
rechecked, so the claimed coverage property fails. -/
theorem C8_counterexample :
    ∃ c r, getCoveringCircle [cexA, cexB, cexC, cexY, cexX] = some (c, r) ∧
      cexX ∈ [cexA, cexB, cexC, cexY, cexX] ∧ ¬ Complex.abs (cexX - c) ≤ r + 1/1000 := by
  have hw6 : welzl ([] : List ℂ) [] (by simp) = none := by
    rw [welzl_nil]
    rfl
  have hw8 : welzl [] [cexX] (by simp) = some (cexX, 0) := by
    rw [welzl_nil]
    rfl
  have hw7 : welzl [cexX] [cexX] (by simp) = some (cexX, 0) := by
    exact welzl_step_accept (by simp) hw8
      (by rw [sub_self, map_zero]; norm_num)
  have hw5 : welzl [cexX] [] (by simp) = some (cexX, 0) := by
    exact (welzl_step_none (by simp) hw6 (by simp)).trans hw7
  have hw11 : welzl [] [cexY] (by simp) = some (cexY, 0) := by
    rw [welzl_nil]
    rfl
  have hw13 : welzl [] [cexY, cexX] (by simp) = some (cpx (-29/200) (101/200), Complex.abs (cexY - cexX) / 2) := by
    rw [welzl_nil]
    show some ((cexY + cexX) / 2, Complex.abs (cexY - cexX) / 2) = _
    rw [show (cexY + cexX) / 2 = cpx (-29/200) (101/200) from by
      simp only [cexA, cexB, cexC, cexY, cexX, cpx_add, cpx_half, cpx_eq_iff]; norm_num]
  have hw12 : welzl [cexX] [cexY, cexX] (by simp) = some (cpx (-29/200) (101/200), Complex.abs (cexY - cexX) / 2) := by
    exact welzl_step_accept (by simp) hw13
      (abs_accept_of_sq_le _ _ (by positivity)
    (by simp only [cexA, cexB, cexC, cexY, cexX, cpx_sub, sq_half_abs, sq_abs_expand, cpx_re, cpx_im]; norm_num))
  have hw10 : welzl [cexX] [cexY] (by simp) = some (cpx (-29/200) (101/200), Complex.abs (cexY - cexX) / 2) := by
    refine (welzl_step_reject (by simp) hw11
      (abs_reject_of_sq _ _ 0 (by norm_num)
    (by norm_num)
    (by simp only [cexA, cexB, cexC, cexY, cexX, cpx_sub, sq_abs_expand, cpx_re, cpx_im]; norm_num)) (by simp)).trans ?_
    exact hw12
  have hw9 : welzl [cexY, cexX] [cexY] (by simp) = some (cpx (-29/200) (101/200), Complex.abs (cexY - cexX) / 2) := by
    exact welzl_step_accept (by simp) hw10
      (abs_accept_of_sq_le _ _ (by positivity)
    (by simp only [cexA, cexB, cexC, cexY, cexX, cpx_sub, sq_half_abs, sq_abs_expand, cpx_re, cpx_im]; norm_num))
  have hw4 : welzl [cexY, cexX] [] (by simp) = some (cpx (-29/200) (101/200), Complex.abs (cexY - cexX) / 2) := by
    refine (welzl_step_reject (by simp) hw5
      (abs_reject_of_sq _ _ 0 (by norm_num)
    (by norm_num)
    (by simp only [cexA, cexB, cexC, cexY, cexX, cpx_sub, sq_abs_expand, cpx_re, cpx_im]; norm_num)) (by simp)).trans ?_
    exact hw9
  have hw17 : welzl [] [cexC] (by simp) = some (cexC, 0) := by
    rw [welzl_nil]
    rfl
  have hw19 : welzl [] [cexC, cexX] (by simp) = some (cpx (119/200) (21/25), Complex.abs (cexC - cexX) / 2) := by
    rw [welzl_nil]
    show some ((cexC + cexX) / 2, Complex.abs (cexC - cexX) / 2) = _
    rw [show (cexC + cexX) / 2 = cpx (119/200) (21/25) from by
      simp only [cexA, cexB, cexC, cexY, cexX, cpx_add, cpx_half, cpx_eq_iff]; norm_num]
  have hw18 : welzl [cexX] [cexC, cexX] (by simp) = some (cpx (119/200) (21/25), Complex.abs (cexC - cexX) / 2) := by
    exact welzl_step_accept (by simp) hw19
      (abs_accept_of_sq_le _ _ (by positivity)
    (by simp only [cexA, cexB, cexC, cexY, cexX, cpx_sub, sq_half_abs, sq_abs_expand, cpx_re, cpx_im]; norm_num))
  have hw16 : welzl [cexX] [cexC] (by simp) = some (cpx (119/200) (21/25), Complex.abs (cexC - cexX) / 2) := by
    refine (welzl_step_reject (by simp) hw17
      (abs_reject_of_sq _ _ 0 (by norm_num)
    (by norm_num)
    (by simp only [cexA, cexB, cexC, cexY, cexX, cpx_sub, sq_abs_expand, cpx_re, cpx_im]; norm_num)) (by simp)).trans ?_
    exact hw18
  have hw22 : welzl [] [cexC, cexY] (by simp) = some (cpx (13/50) (-67/200), Complex.abs (cexC - cexY) / 2) := by
    rw [welzl_nil]
    show some ((cexC + cexY) / 2, Complex.abs (cexC - cexY) / 2) = _
    rw [show (cexC + cexY) / 2 = cpx (13/50) (-67/200) from by
      simp only [cexA, cexB, cexC, cexY, cexX, cpx_add, cpx_half, cpx_eq_iff]; norm_num]
  have hwa_hc24 : w3a cexC cexY cexX = (5463831/6250000) := by
    simp only [cexA, cexB, cexC, cexY, cexX, w3a, w3b, w3c, cpx_sub, sq_abs_expand, cpx_re, cpx_im]; norm_num
  have hwb_hc24 : w3b cexC cexY cexX = (178523577/10000000) := by
    simp only [cexA, cexB, cexC, cexY, cexX, w3a, w3b, w3c, cpx_sub, sq_abs_expand, cpx_re, cpx_im]; norm_num
  have hwc_hc24 : w3c cexC cexY cexX = (898760829/50000000) := by
    simp only [cexA, cexB, cexC, cexY, cexX, w3a, w3b, w3c, cpx_sub, sq_abs_expand, cpx_re, cpx_im]; norm_num
  have hcen_hc24 : circCenter cexC cexY cexX = cpx (-235473/2019400) (1003449/2019400) := by
    refine circCenter_eq_of _ _ _ _ (by rw [hwa_hc24, hwb_hc24, hwc_hc24]; norm_num) ?_
    rw [hwa_hc24, hwb_hc24, hwc_hc24]
    simp only [cexA, cexB, cexC, cexY, cexX, cpx_ofReal, cpx_mul, cpx_add, cpx_eq_iff]
    norm_num
  have hc3_hc24 : circle3 cexC cexY cexX = (cpx (-235473/2019400) (1003449/2019400), Complex.abs (cpx (-235473/2019400) (1003449/2019400) - cexC)) := by
    rw [circle3_eq, if_neg (by rw [hwa_hc24]; norm_num), if_neg (by rw [hwb_hc24]; norm_num),
      if_neg (by rw [hwc_hc24]; norm_num), hcen_hc24]
  have hw23 : welzl [cexX] [cexC, cexY, cexX] (by simp) = some (cpx (-235473/2019400) (1003449/2019400), Complex.abs (cpx (-235473/2019400) (1003449/2019400) - cexC)) := by
    rw [welzl_full _ _ _ _ (by simp)]
    show some (circle3 cexC cexY cexX) = _
    rw [hc3_hc24]
  have hw21 : welzl [cexX] [cexC, cexY] (by simp) = some (cpx (-235473/2019400) (1003449/2019400), Complex.abs (cpx (-235473/2019400) (1003449/2019400) - cexC)) := by
    refine (welzl_step_reject (by simp) hw22
      (abs_reject_of_sq _ _ (8123/10000) (by norm_num)
    (by simp only [cexA, cexB, cexC, cexY, cexX, cpx_sub, sq_half_abs, sq_abs_expand, cpx_re, cpx_im]; norm_num)
    (by simp only [cexA, cexB, cexC, cexY, cexX, cpx_sub, sq_abs_expand, cpx_re, cpx_im]; norm_num)) (by simp)).trans ?_
    exact hw23
  have hw20 : welzl [cexY, cexX] [cexC, cexY] (by simp) = some (cpx (-235473/2019400) (1003449/2019400), Complex.abs (cpx (-235473/2019400) (1003449/2019400) - cexC)) := by
    exact welzl_step_accept (by simp) hw21
      (abs_accept_of_sq_le _ _ (Complex.abs.nonneg _)
    (by simp only [cexA, cexB, cexC, cexY, cexX, cpx_sub, sq_abs_expand, cpx_re, cpx_im]; norm_num))
  have hw15 : welzl [cexY, cexX] [cexC] (by simp) = some (cpx (-235473/2019400) (1003449/2019400), Complex.abs (cpx (-235473/2019400) (1003449/2019400) - cexC)) := by
    refine (welzl_step_reject (by simp) hw16
      (abs_reject_of_sq _ _ (46627/50000) (by norm_num)
    (by simp only [cexA, cexB, cexC, cexY, cexX, cpx_sub, sq_half_abs, sq_abs_expand, cpx_re, cpx_im]; norm_num)
    (by simp only [cexA, cexB, cexC, cexY, cexX, cpx_sub, sq_abs_expand, cpx_re, cpx_im]; norm_num)) (by simp)).trans ?_
    exact hw20
  have hw14 : welzl [cexC, cexY, cexX] [cexC] (by simp) = some (cpx (-235473/2019400) (1003449/2019400), Complex.abs (cpx (-235473/2019400) (1003449/2019400) - cexC)) := by
    exact welzl_step_accept (by simp) hw15
      (abs_accept_of_sq_le _ _ (Complex.abs.nonneg _)
    (by simp only [cexA, cexB, cexC, cexY, cexX, cpx_sub, sq_abs_expand, cpx_re, cpx_im]; norm_num))
  have hw3 : welzl [cexC, cexY, cexX] [] (by simp) = some (cpx (-235473/2019400) (1003449/2019400), Complex.abs (cpx (-235473/2019400) (1003449/2019400) - cexC)) := by
    refine (welzl_step_reject (by simp) hw4
      (abs_reject_of_sq _ _ (122183/100000) (by norm_num)
    (by simp only [cexA, cexB, cexC, cexY, cexX, cpx_sub, sq_half_abs, sq_abs_expand, cpx_re, cpx_im]; norm_num)
    (by simp only [cexA, cexB, cexC, cexY, cexX, cpx_sub, sq_abs_expand, cpx_re, cpx_im]; norm_num)) (by simp)).trans ?_
    exact hw14
  have hw29 : welzl [] [cexB] (by simp) = some (cexB, 0) := by
    rw [welzl_nil]
    rfl
  have hw31 : welzl [] [cexB, cexX] (by simp) = some (cpx (19/100) (87/200), Complex.abs (cexB - cexX) / 2) := by
    rw [welzl_nil]
    show some ((cexB + cexX) / 2, Complex.abs (cexB - cexX) / 2) = _
    rw [show (cexB + cexX) / 2 = cpx (19/100) (87/200) from by
      simp only [cexA, cexB, cexC, cexY, cexX, cpx_add, cpx_half, cpx_eq_iff]; norm_num]
  have hw30 : welzl [cexX] [cexB, cexX] (by simp) = some (cpx (19/100) (87/200), Complex.abs (cexB - cexX) / 2) := by
    exact welzl_step_accept (by simp) hw31
      (abs_accept_of_sq_le _ _ (by positivity)
    (by simp only [cexA, cexB, cexC, cexY, cexX, cpx_sub, sq_half_abs, sq_abs_expand, cpx_re, cpx_im]; norm_num))
  have hw28 : welzl [cexX] [cexB] (by simp) = some (cpx (19/100) (87/200), Complex.abs (cexB - cexX) / 2) := by
    refine (welzl_step_reject (by simp) hw29
      (abs_reject_of_sq _ _ 0 (by norm_num)
    (by norm_num)
    (by simp only [cexA, cexB, cexC, cexY, cexX, cpx_sub, sq_abs_expand, cpx_re, cpx_im]; norm_num)) (by simp)).trans ?_
    exact hw30
  have hw34 : welzl [] [cexB, cexY] (by simp) = some (cpx (-29/200) (-37/50), Complex.abs (cexB - cexY) / 2) := by
    rw [welzl_nil]
    show some ((cexB + cexY) / 2, Complex.abs (cexB - cexY) / 2) = _
    rw [show (cexB + cexY) / 2 = cpx (-29/200) (-37/50) from by
      simp only [cexA, cexB, cexC, cexY, cexX, cpx_add, cpx_half, cpx_eq_iff]; norm_num]
  have hwa_hc36 : w3a cexB cexY cexX = (52040751/12500000) := by
    simp only [cexA, cexB, cexC, cexY, cexX, w3a, w3b, w3c, cpx_sub, sq_abs_expand, cpx_re, cpx_im]; norm_num
  have hwb_hc36 : w3b cexB cexY cexX = (74339199/50000000) := by
    simp only [cexA, cexB, cexC, cexY, cexX, w3a, w3b, w3c, cpx_sub, sq_abs_expand, cpx_re, cpx_im]; norm_num
  have hwc_hc36 : w3c cexB cexY cexX = (10965711/2000000) := by
    simp only [cexA, cexB, cexC, cexY, cexX, w3a, w3b, w3c, cpx_sub, sq_abs_expand, cpx_re, cpx_im]; norm_num
  have hcen_hc36 : circCenter cexB cexY cexX = cpx (1347/13400) (87/200) := by
    refine circCenter_eq_of _ _ _ _ (by rw [hwa_hc36, hwb_hc36, hwc_hc36]; norm_num) ?_
    rw [hwa_hc36, hwb_hc36, hwc_hc36]
    simp only [cexA, cexB, cexC, cexY, cexX, cpx_ofReal, cpx_mul, cpx_add, cpx_eq_iff]
    norm_num
  have hc3_hc36 : circle3 cexB cexY cexX = (cpx (1347/13400) (87/200), Complex.abs (cpx (1347/13400) (87/200) - cexB)) := by
    rw [circle3_eq, if_neg (by rw [hwa_hc36]; norm_num), if_neg (by rw [hwb_hc36]; norm_num),
      if_neg (by rw [hwc_hc36]; norm_num), hcen_hc36]
  have hw35 : welzl [cexX] [cexB, cexY, cexX] (by simp) = some (cpx (1347/13400) (87/200), Complex.abs (cpx (1347/13400) (87/200) - cexB)) := by
    rw [welzl_full _ _ _ _ (by simp)]
    show some (circle3 cexB cexY cexX) = _
    rw [hc3_hc36]
  have hw33 : welzl [cexX] [cexB, cexY] (by simp) = some (cpx (1347/13400) (87/200), Complex.abs (cpx (1347/13400) (87/200) - cexB)) := by
    refine (welzl_step_reject (by simp) hw34
      (abs_reject_of_sq _ _ (2139/6250) (by norm_num)
    (by simp only [cexA, cexB, cexC, cexY, cexX, cpx_sub, sq_half_abs, sq_abs_expand, cpx_re, cpx_im]; norm_num)
    (by simp only [cexA, cexB, cexC, cexY, cexX, cpx_sub, sq_abs_expand, cpx_re, cpx_im]; norm_num)) (by simp)).trans ?_
    exact hw35
  have hw32 : welzl [cexY, cexX] [cexB, cexY] (by simp) = some (cpx (1347/13400) (87/200), Complex.abs (cpx (1347/13400) (87/200) - cexB)) := by
    exact welzl_step_accept (by simp) hw33
      (abs_accept_of_sq_le _ _ (Complex.abs.nonneg _)
    (by simp only [cexA, cexB, cexC, cexY, cexX, cpx_sub, sq_abs_expand, cpx_re, cpx_im]; norm_num))
  have hw27 : welzl [cexY, cexX] [cexB] (by simp) = some (cpx (1347/13400) (87/200), Complex.abs (cpx (1347/13400) (87/200) - cexB)) := by
    refine (welzl_step_reject (by simp) hw28
      (abs_reject_of_sq _ _ (249/200) (by norm_num)
    (by simp only [cexA, cexB, cexC, cexY, cexX, cpx_sub, sq_half_abs, sq_abs_expand, cpx_re, cpx_im]; norm_num)
    (by simp only [cexA, cexB, cexC, cexY, cexX, cpx_sub, sq_abs_expand, cpx_re, cpx_im]; norm_num)) (by simp)).trans ?_
    exact hw32
  have hw26 : welzl [cexC, cexY, cexX] [cexB] (by simp) = some (cpx (1347/13400) (87/200), Complex.abs (cpx (1347/13400) (87/200) - cexB)) := by
    exact welzl_step_accept (by simp) hw27
      (abs_accept_of_sq_le _ _ (Complex.abs.nonneg _)
    (by simp only [cexA, cexB, cexC, cexY, cexX, cpx_sub, sq_abs_expand, cpx_re, cpx_im]; norm_num))
  have hw25 : welzl [cexB, cexC, cexY, cexX] [cexB] (by simp) = some (cpx (1347/13400) (87/200), Complex.abs (cpx (1347/13400) (87/200) - cexB)) := by
    exact welzl_step_accept (by simp) hw26
      (abs_accept_of_sq_le _ _ (Complex.abs.nonneg _)
    (by simp only [cexA, cexB, cexC, cexY, cexX, cpx_sub, sq_abs_expand, cpx_re, cpx_im]; norm_num))
  have hw2 : welzl [cexB, cexC, cexY, cexX] [] (by simp) = some (cpx (1347/13400) (87/200), Complex.abs (cpx (1347/13400) (87/200) - cexB)) := by
    refine (welzl_step_reject (by simp) hw3
      (abs_reject_of_sq _ _ (61109/50000) (by norm_num)
    (by simp only [cexA, cexB, cexC, cexY, cexX, cpx_sub, sq_abs_expand, cpx_re, cpx_im]; norm_num)
    (by simp only [cexA, cexB, cexC, cexY, cexX, cpx_sub, sq_abs_expand, cpx_re, cpx_im]; norm_num)) (by simp)).trans ?_
    exact hw25
  have hw42 : welzl [] [cexA] (by simp) = some (cexA, 0) := by
    rw [welzl_nil]
    rfl
  have hw44 : welzl [] [cexA, cexX] (by simp) = some (cpx (-17/40) (71/100), Complex.abs (cexA - cexX) / 2) := by
    rw [welzl_nil]
    show some ((cexA + cexX) / 2, Complex.abs (cexA - cexX) / 2) = _
    rw [show (cexA + cexX) / 2 = cpx (-17/40) (71/100) from by
      simp only [cexA, cexB, cexC, cexY, cexX, cpx_add, cpx_half, cpx_eq_iff]; norm_num]
  have hw43 : welzl [cexX] [cexA, cexX] (by simp) = some (cpx (-17/40) (71/100), Complex.abs (cexA - cexX) / 2) := by
    exact welzl_step_accept (by simp) hw44
      (abs_accept_of_sq_le _ _ (by positivity)
    (by simp only [cexA, cexB, cexC, cexY, cexX, cpx_sub, sq_half_abs, sq_abs_expand, cpx_re, cpx_im]; norm_num))
  have hw41 : welzl [cexX] [cexA] (by simp) = some (cpx (-17/40) (71/100), Complex.abs (cexA - cexX) / 2) := by
    refine (welzl_step_reject (by simp) hw42
      (abs_reject_of_sq _ _ 0 (by norm_num)
    (by norm_num)
    (by simp only [cexA, cexB, cexC, cexY, cexX, cpx_sub, sq_abs_expand, cpx_re, cpx_im]; norm_num)) (by simp)).trans ?_
    exact hw43
  have hw47 : welzl [] [cexA, cexY] (by simp) = some (cpx (-19/25) (-93/200), Complex.abs (cexA - cexY) / 2) := by
    rw [welzl_nil]
    show some ((cexA + cexY) / 2, Complex.abs (cexA - cexY) / 2) = _
    rw [show (cexA + cexY) / 2 = cpx (-19/25) (-93/200) from by
      simp only [cexA, cexB, cexC, cexY, cexX, cpx_add, cpx_half, cpx_eq_iff]; norm_num]
  have hwa_hc49 : w3a cexA cexY cexX = (-15913781/12500000) := by
    simp only [cexA, cexB, cexC, cexY, cexX, w3a, w3b, w3c, cpx_sub, sq_abs_expand, cpx_re, cpx_im]; norm_num
  have hc3_hc49 : circle3 cexA cexY cexX = (cpx (-29/200) (101/200), Complex.abs (cexY - cexX) / 2) := by
    rw [circle3_eq, if_pos (by rw [hwa_hc49]; norm_num)]
    rw [show (cexY + cexX) / 2 = cpx (-29/200) (101/200) from by
      simp only [cexA, cexB, cexC, cexY, cexX, cpx_add, cpx_half, cpx_eq_iff]; norm_num]
  have hw48 : welzl [cexX] [cexA, cexY, cexX] (by simp) = some (cpx (-29/200) (101/200), Complex.abs (cexY - cexX) / 2) := by
    rw [welzl_full _ _ _ _ (by simp)]
    show some (circle3 cexA cexY cexX) = _
    rw [hc3_hc49]
  have hw46 : welzl [cexX] [cexA, cexY] (by simp) = some (cpx (-29/200) (101/200), Complex.abs (cexY - cexX) / 2) := by
    refine (welzl_step_reject (by simp) hw47
      (abs_reject_of_sq _ _ (34703/100000) (by norm_num)
    (by simp only [cexA, cexB, cexC, cexY, cexX, cpx_sub, sq_half_abs, sq_abs_expand, cpx_re, cpx_im]; norm_num)
    (by simp only [cexA, cexB, cexC, cexY, cexX, cpx_sub, sq_abs_expand, cpx_re, cpx_im]; norm_num)) (by simp)).trans ?_
    exact hw48
  have hw45 : welzl [cexY, cexX] [cexA, cexY] (by simp) = some (cpx (-29/200) (101/200), Complex.abs (cexY - cexX) / 2) := by
    exact welzl_step_accept (by simp) hw46
      (abs_accept_of_sq_le _ _ (by positivity)
    (by simp only [cexA, cexB, cexC, cexY, cexX, cpx_sub, sq_half_abs, sq_abs_expand, cpx_re, cpx_im]; norm_num))
  have hw40 : welzl [cexY, cexX] [cexA] (by simp) = some (cpx (-29/200) (101/200), Complex.abs (cexY - cexX) / 2) := by
    refine (welzl_step_reject (by simp) hw41
      (abs_reject_of_sq _ _ (57427/50000) (by norm_num)
    (by simp only [cexA, cexB, cexC, cexY, cexX, cpx_sub, sq_half_abs, sq_abs_expand, cpx_re, cpx_im]; norm_num)
    (by simp only [cexA, cexB, cexC, cexY, cexX, cpx_sub, sq_abs_expand, cpx_re, cpx_im]; norm_num)) (by simp)).trans ?_
    exact hw45
  have hw53 : welzl [] [cexA, cexC] (by simp) = some (cpx (-1/50) (-13/100), Complex.abs (cexA - cexC) / 2) := by
    rw [welzl_nil]
    show some ((cexA + cexC) / 2, Complex.abs (cexA - cexC) / 2) = _
    rw [show (cexA + cexC) / 2 = cpx (-1/50) (-13/100) from by
      simp only [cexA, cexB, cexC, cexY, cexX, cpx_add, cpx_half, cpx_eq_iff]; norm_num]
  have hwa_hc55 : w3a cexA cexC cexX = (26207019/1250000) := by
    simp only [cexA, cexB, cexC, cexY, cexX, w3a, w3b, w3c, cpx_sub, sq_abs_expand, cpx_re, cpx_im]; norm_num
  have hwb_hc55 : w3b cexA cexC cexX = (32070567/2500000) := by
    simp only [cexA, cexB, cexC, cexY, cexX, w3a, w3b, w3c, cpx_sub, sq_abs_expand, cpx_re, cpx_im]; norm_num
  have hwc_hc55 : w3c cexA cexC cexX = (239256417/12500000) := by
    simp only [cexA, cexB, cexC, cexY, cexX, w3a, w3b, w3c, cpx_sub, sq_abs_expand, cpx_re, cpx_im]; norm_num
  have hcen_hc55 : circCenter cexA cexC cexX = cpx (-122311/1212600) (50979/101050) := by
    refine circCenter_eq_of _ _ _ _ (by rw [hwa_hc55, hwb_hc55, hwc_hc55]; norm_num) ?_
    rw [hwa_hc55, hwb_hc55, hwc_hc55]
    simp only [cexA, cexB, cexC, cexY, cexX, cpx_ofReal, cpx_mul, cpx_add, cpx_eq_iff]
    norm_num
  have hc3_hc55 : circle3 cexA cexC cexX = (cpx (-122311/1212600) (50979/101050), Complex.abs (cpx (-122311/1212600) (50979/101050) - cexA)) := by
    rw [circle3_eq, if_neg (by rw [hwa_hc55]; norm_num), if_neg (by rw [hwb_hc55]; norm_num),
      if_neg (by rw [hwc_hc55]; norm_num), hcen_hc55]
  have hw54 : welzl [cexX] [cexA, cexC, cexX] (by simp) = some (cpx (-122311/1212600) (50979/101050), Complex.abs (cpx (-122311/1212600) (50979/101050) - cexA)) := by
    rw [welzl_full _ _ _ _ (by simp)]
    show some (circle3 cexA cexC cexX) = _
    rw [hc3_hc55]
  have hw52 : welzl [cexX] [cexA, cexC] (by simp) = some (cpx (-122311/1212600) (50979/101050), Complex.abs (cpx (-122311/1212600) (50979/101050) - cexA)) := by
    refine (welzl_step_reject (by simp) hw53
      (abs_reject_of_sq _ _ (51413/50000) (by norm_num)
    (by simp only [cexA, cexB, cexC, cexY, cexX, cpx_sub, sq_half_abs, sq_abs_expand, cpx_re, cpx_im]; norm_num)
    (by simp only [cexA, cexB, cexC, cexY, cexX, cpx_sub, sq_abs_expand, cpx_re, cpx_im]; norm_num)) (by simp)).trans ?_
    exact hw54
  have hwa_hc57 : w3a cexA cexC cexY = (136689347/25000000) := by
    simp only [cexA, cexB, cexC, cexY, cexX, w3a, w3b, w3c, cpx_sub, sq_abs_expand, cpx_re, cpx_im]; norm_num
  have hwb_hc57 : w3b cexA cexC cexY = (76913039/25000000) := by
    simp only [cexA, cexB, cexC, cexY, cexX, w3a, w3b, w3c, cpx_sub, sq_abs_expand, cpx_re, cpx_im]; norm_num
  have hwc_hc57 : w3c cexA cexC cexY = (-58584993/12500000) := by
    simp only [cexA, cexB, cexC, cexY, cexX, w3a, w3b, w3c, cpx_sub, sq_abs_expand, cpx_re, cpx_im]; norm_num
  have hc3_hc57 : circle3 cexA cexC cexY = (cpx (-1/50) (-13/100), Complex.abs (cexA - cexC) / 2) := by
    rw [circle3_eq, if_neg (by rw [hwa_hc57]; norm_num), if_neg (by rw [hwb_hc57]; norm_num),
      if_pos (by rw [hwc_hc57]; norm_num)]
    rw [show (cexA + cexC) / 2 = cpx (-1/50) (-13/100) from by
      simp only [cexA, cexB, cexC, cexY, cexX, cpx_add, cpx_half, cpx_eq_iff]; norm_num]
  have hw56 : welzl [cexY, cexX] [cexA, cexC, cexY] (by simp) = some (cpx (-1/50) (-13/100), Complex.abs (cexA - cexC) / 2) := by
    rw [welzl_full _ _ _ _ (by simp)]
    show some (circle3 cexA cexC cexY) = _
    rw [hc3_hc57]
  have hw51 : welzl [cexY, cexX] [cexA, cexC] (by simp) = some (cpx (-1/50) (-13/100), Complex.abs (cexA - cexC) / 2) := by
    refine (welzl_step_reject (by simp) hw52
      (abs_reject_of_sq _ _ (15137/12500) (by norm_num)
    (by simp only [cexA, cexB, cexC, cexY, cexX, cpx_sub, sq_abs_expand, cpx_re, cpx_im]; norm_num)
    (by simp only [cexA, cexB, cexC, cexY, cexX, cpx_sub, sq_abs_expand, cpx_re, cpx_im]; norm_num)) (by simp)).trans ?_
    exact hw56
  have hw50 : welzl [cexC, cexY, cexX] [cexA, cexC] (by simp) = some (cpx (-1/50) (-13/100), Complex.abs (cexA - cexC) / 2) := by
    exact welzl_step_accept (by simp) hw51
      (abs_accept_of_sq_le _ _ (by positivity)
    (by simp only [cexA, cexB, cexC, cexY, cexX, cpx_sub, sq_half_abs, sq_abs_expand, cpx_re, cpx_im]; norm_num))
  have hw39 : welzl [cexC, cexY, cexX] [cexA] (by simp) = some (cpx (-1/50) (-13/100), Complex.abs (cexA - cexC) / 2) := by
    refine (welzl_step_reject (by simp) hw40
      (abs_reject_of_sq _ _ (122183/100000) (by norm_num)
    (by simp only [cexA, cexB, cexC, cexY, cexX, cpx_sub, sq_half_abs, sq_abs_expand, cpx_re, cpx_im]; norm_num)
    (by simp only [cexA, cexB, cexC, cexY, cexX, cpx_sub, sq_abs_expand, cpx_re, cpx_im]; norm_num)) (by simp)).trans ?_
    exact hw50
  have hw38 : welzl [cexB, cexC, cexY, cexX] [cexA] (by simp) = some (cpx (-1/50) (-13/100), Complex.abs (cexA - cexC) / 2) := by
    exact welzl_step_accept (by simp) hw39
      (abs_accept_of_sq_le _ _ (by positivity)
    (by simp only [cexA, cexB, cexC, cexY, cexX, cpx_sub, sq_half_abs, sq_abs_expand, cpx_re, cpx_im]; norm_num))
  have hw37 : welzl [cexA, cexB, cexC, cexY, cexX] [cexA] (by simp) = some (cpx (-1/50) (-13/100), Complex.abs (cexA - cexC) / 2) := by
    exact welzl_step_accept (by simp) hw38
      (abs_accept_of_sq_le _ _ (by positivity)
    (by simp only [cexA, cexB, cexC, cexY, cexX, cpx_sub, sq_half_abs, sq_abs_expand, cpx_re, cpx_im]; norm_num))
  have hw1 : welzl [cexA, cexB, cexC, cexY, cexX] [] (by simp) = some (cpx (-1/50) (-13/100), Complex.abs (cexA - cexC) / 2) := by
    refine (welzl_step_reject (by simp) hw2
      (abs_reject_of_sq _ _ (62411/50000) (by norm_num)
    (by simp only [cexA, cexB, cexC, cexY, cexX, cpx_sub, sq_abs_expand, cpx_re, cpx_im]; norm_num)
    (by simp only [cexA, cexB, cexC, cexY, cexX, cpx_sub, sq_abs_expand, cpx_re, cpx_im]; norm_num)) (by simp)).trans ?_
    exact hw37
  refine ⟨cpx (-1/50) (-13/100), Complex.abs (cexA - cexC) / 2, hw1, by simp, ?_⟩
  exact abs_reject_of_sq _ _ (51413/50000) (by norm_num)
    (by simp only [cexA, cexC, cpx_sub, sq_half_abs, sq_abs_expand, cpx_re, cpx_im]; norm_num)
    (by simp only [cexA, cexC, cexX, cpx_sub, sq_abs_expand, cpx_re, cpx_im]; norm_num)

/-- C8 (amended): for every non-empty list of points (in any shuffle
order) `get_covering_circle` returns a circle, no circle of strictly
smaller radius contains all the points (`r ≤ s` for every covering centre
`d` and radius `s`), and a single-point input yields that point with
radius `0`.  The claimed coverage property — every input point within the
returned radius plus the 0.001 tolerance — is false, see the
counterexample. -/
theorem C8_coveringCircle_amended :
    (∀ l : List ℂ, l ≠ [] → ∃ c r, getCoveringCircle l = some (c, r)) ∧
    (∀ (l : List ℂ) (c : ℂ) (r : ℝ), getCoveringCircle l = some (c, r) →
      ∀ (d : ℂ) (s : ℝ), 0 ≤ s → (∀ q ∈ l, Complex.abs (q - d) ≤ s) → r ≤ s) ∧
    (∀ z : ℂ, getCoveringCircle [z] = some (z, 0)) := by
  refine ⟨?_, ?_, getCoveringCircle_singleton⟩
  · intro l hl
    have h := welzl_isSome l [] (by simp) (Or.inl hl)
    rw [Option.isSome_iff_exists] at h
    obtain ⟨⟨c, r⟩, hc⟩ := h
    exact ⟨c, r, hc⟩
  · intro l c r heq d s hs hcov
    exact welzl_min d s hs l [] (by simp) c r heq hcov (by simp)

/-- Witness for the amended C8 theorem: existence/minimality/singleton
instantiated on the one-point list `[0]` with covering radius `1`. -/
theorem C8_coveringCircle_amended_witness :
    getCoveringCircle [cpx 0 0] = some (cpx 0 0, 0) ∧ (0 : ℝ) ≤ 1 :=
  ⟨C8_coveringCircle_amended.2.2 (cpx 0 0),
   C8_coveringCircle_amended.2.1 [cpx 0 0] (cpx 0 0) 0
     (C8_coveringCircle_amended.2.2 (cpx 0 0)) (cpx 0 0) 1 (by norm_num)
     (fun q hq => by
       rcases List.mem_singleton.mp hq with rfl
       rw [sub_self, map_zero]
       exact zero_le_one)⟩

end MaiMuri
